import Mathlib

/-!
# github-stars-contributions-mcp: adapter layer

A shallow embedding of `src/github-stars-contributions-mcp.mjs`: the GraphQL
request helper, the two enumerations, the ten `server.tool` registrations with
their declared input schemas and handlers, and the start-up sequence of the
module (credential check, registrations, transport connection).

JavaScript values are embedded as the inductive type `JsVal`. What the program
obtains from its environment is passed explicitly: the built-ins of the
JavaScript engine that are not fixed by the program (`Date.parse`, `new URL`,
`Number::toString`, `JSON.stringify`) are the fields of `Runtime`, the remote
service is a function from the request to the decoded body, and the
environment variable is an argument of the start-up function.
-/

namespace GithubStars

/-! ## JavaScript values -/

/-- A JavaScript number. A finite non-zero or positive-zero value is written as
`mant * 2 ^ exp` (every finite double has this shape); negative zero, the two
infinities and NaN are separate constructors. -/
inductive JsNumber where
  | finite (mant : Int) (exp : Int)
  | negZero
  | inf (neg : Bool)
  | nan
  deriving DecidableEq, Repr

/-- A JavaScript value as this program meets it: `undefined`, or a value decoded
from JSON. The properties of an object are kept in order. -/
inductive JsVal where
  | undefined
  | null
  | bool (b : Bool)
  | num (n : JsNumber)
  | str (s : String)
  | arr (items : List JsVal)
  | obj (props : List (String × JsVal))
  deriving Repr

/-- An exception value. `error m` is `new Error(m)` thrown by the program itself;
`typeError` and `rangeError` are raised by the engine (their message text is
engine specific and is not modelled); `transport` is a rejection of `fetch` or of
`response.json()`; `validation` and `protocol` are produced by the tool call path
of the server library. -/
inductive JsError where
  | error (message : String)
  | typeError
  | rangeError
  | transport (detail : String)
  | validation (field : String)
  | protocol (detail : String)
  deriving DecidableEq, Repr

/-- ToBoolean on numbers: zero, negative zero and NaN are falsy. -/
def JsNumber.truthy : JsNumber → Bool
  | .finite mant _ => decide (mant ≠ 0)
  | .negZero => false
  | .inf _ => true
  | .nan => false

/-- ToBoolean: `undefined`, `null`, `false`, `0`, `-0`, `NaN` and the empty string
are falsy; every array and every object (the empty ones included) is truthy. -/
def JsVal.truthy : JsVal → Bool
  | .undefined => false
  | .null => false
  | .bool b => b
  | .num n => n.truthy
  | .str s => decide (s ≠ "")
  | .arr _ => true
  | .obj _ => true

/-- The operator `a || b`. -/
def jsOr (a b : JsVal) : JsVal :=
  if a.truthy then a else b

/-- The operator `a ?? b`. -/
def jsNullish (a b : JsVal) : JsVal :=
  match a with
  | .undefined => b
  | .null => b
  | v => v

/-- Own-property lookup in a property list; `undefined` when the key is absent. -/
def lookupProp (props : List (String × JsVal)) (key : String) : JsVal :=
  match props with
  | [] => .undefined
  | (k, v) :: rest => if k = key then v else lookupProp rest key

/-- The member access `v.key`, for the property names this program reads (none of
them is defined on a prototype or is an index): a TypeError on `undefined` and
`null`, the own property on an object, `undefined` on every other value. -/
def getProp (v : JsVal) (key : String) : Except JsError JsVal :=
  match v with
  | .undefined => .error .typeError
  | .null => .error .typeError
  | .obj props => .ok (lookupProp props key)
  | _ => .ok .undefined

/-! ## The engine built-ins the program relies on -/

/-- The built-ins whose result is not determined by the program text.
`dateParse` is `Date.parse` (`none` is NaN); `isUrl s` says that `new URL(s)` does
not throw, which it does on the empty string; `numToString` is
`Number::toString`; `stringify v` is `JSON.stringify(v, null, 2)` (`none` is
`undefined`). -/
structure Runtime where
  dateParse : String → Option Int
  isUrl : String → Bool
  isUrl_empty : isUrl "" = false
  numToString : JsNumber → String
  stringify : JsVal → Option String

mutual
/-- ToString on the values of `JsVal`. -/
def toStr (env : Runtime) : JsVal → String
  | .undefined => "undefined"
  | .null => "null"
  | .bool true => "true"
  | .bool false => "false"
  | .num n => env.numToString n
  | .str s => s
  | .arr items => ",".intercalate (joinItems env items)
  | .obj _ => "[object Object]"
/-- The strings `Array.prototype.join` concatenates: `undefined` and `null` give
the empty string, every other element its ToString. -/
def joinItems (env : Runtime) : List JsVal → List String
  | [] => []
  | .undefined :: rest => "" :: joinItems env rest
  | .null :: rest => "" :: joinItems env rest
  | v :: rest => toStr env v :: joinItems env rest
end

/-- The call `items.join(sep)`. -/
def arrayJoin (env : Runtime) (sep : String) (items : List JsVal) : String :=
  sep.intercalate (joinItems env items)

/-! ## Dates: `new Date(value)` and `Date.prototype.toISOString` -/

/-- The number of milliseconds in a day. -/
def msPerDay : Int := 86400000

/-- The largest magnitude of a time value (TimeClip). -/
def maxTimeValue : Int := 8640000000000000

/-- TimeClip on an integral number of milliseconds: NaN beyond the range. -/
def timeClip (t : Int) : Option Int :=
  if t.natAbs ≤ maxTimeValue.natAbs then some t else none

/-- TimeClip on a number: NaN for a non-finite value or one whose magnitude
exceeds the range, otherwise the value truncated towards zero. -/
def timeClipNumber : JsNumber → Option Int
  | .finite mant exp =>
    if 0 ≤ exp then timeClip (mant * 2 ^ exp.toNat)
    else if mant.natAbs ≤ maxTimeValue.natAbs * 2 ^ (-exp).toNat then
      some (Int.tdiv mant (2 ^ (-exp).toNat))
    else none
  | .negZero => some 0
  | .inf _ => none
  | .nan => none

/-- The time value of `new Date(value)` for a single argument: a string is
parsed, an array or an object is first turned into its string, anything else is
turned into a number; `none` is the invalid date. -/
def newDate (env : Runtime) (value : JsVal) : Option Int :=
  match value with
  | .str s => (env.dateParse s).bind timeClip
  | .arr items => (env.dateParse (toStr env (.arr items))).bind timeClip
  | .obj props => (env.dateParse (toStr env (.obj props))).bind timeClip
  | .undefined => none
  | .null => some 0
  | .bool true => some 1
  | .bool false => some 0
  | .num n => timeClipNumber n

/-- The proleptic Gregorian date (year, month 1..12, day 1..31) of a day number
counted from 1970-01-01. The day number is split into 400-year eras that begin
on 1 March of a year divisible by 400, then into centuries, 4-year groups and
years, each beginning on 1 March. -/
def civilFromDays (day : Int) : Int × Int × Int :=
  let z := day + 719468
  let era := z / 146097
  let doe := z % 146097
  let n100 := min (doe / 36524) 3
  let r1 := doe - 36524 * n100
  let n4 := r1 / 1461
  let r2 := r1 % 1461
  let n1 := min (r2 / 365) 3
  let doy := r2 - 365 * n1
  let mp := (5 * doy + 2) / 153
  let d := doy - (153 * mp + 2) / 5 + 1
  let m := if mp < 10 then mp + 3 else mp - 9
  let y := 100 * n100 + 4 * n4 + n1 + era * 400
  (if m ≤ 2 then y + 1 else y, m, d)

/-- The decimal digit of a number below ten. -/
def digitChar (n : Nat) : Char :=
  Char.ofNat (48 + n % 10)

/-- The last `width` decimal digits of `n`, most significant first. -/
def padDigits : Nat → Nat → List Char
  | 0, _ => []
  | width + 1, n => padDigits width (n / 10) ++ [digitChar n]

/-- The year of an ISO string: four digits from 0 to 9999, otherwise a sign and
six digits. -/
def isoYear (y : Int) : List Char :=
  if 0 ≤ y ∧ y ≤ 9999 then padDigits 4 y.toNat
  else if 0 ≤ y then '+' :: padDigits 6 y.toNat
  else '-' :: padDigits 6 y.natAbs

/-- The string `Date.prototype.toISOString` returns for a valid time value. -/
def isoString (t : Int) : String :=
  let (y, m, d) := civilFromDays (t / msPerDay)
  let ms := (t % msPerDay).toNat
  String.mk (isoYear y ++ '-' :: padDigits 2 m.toNat ++ '-' :: padDigits 2 d.toNat
    ++ 'T' :: padDigits 2 (ms / 3600000) ++ ':' :: padDigits 2 (ms / 60000 % 60)
    ++ ':' :: padDigits 2 (ms / 1000 % 60) ++ '.' :: padDigits 3 (ms % 1000) ++ ['Z'])

/-- The call `date.toISOString()`: a RangeError on the invalid date. -/
def toISOString (date : Option Int) : Except JsError String :=
  match date with
  | none => .error .rangeError
  | some t => .ok (isoString t)

/-! ## The GraphQL request helper -/

/-- The constant `API_URL`. -/
def API_URL : String := "https://api-stars.github.com/"

/-- The arguments of the one `fetch` call of `graphqlRequest`. The body is kept
as the two members of the object handed to `JSON.stringify`; that call leaves out
every property whose value is `undefined`. -/
structure Request where
  url : String
  method : String
  authorization : String
  contentType : String
  query : String
  vars : JsVal

/-- The remote service as seen through `fetch` followed by `response.json()`:
the decoded body, or the rejection of either promise. -/
abbrev Remote := Request → Except JsError JsVal

/-- What a handler closes over: the engine, the module constant
`GITHUB_STARS_TOKEN` and the remote service. -/
structure Ctx where
  env : Runtime
  token : String
  remote : Remote

/-- The effect of an asynchronous function: the requests it issued, in order,
and its settled result (`error` is a rejection). -/
structure Outcome (α : Type) where
  sent : List Request
  result : Except JsError α

/-- A step that issues no request. -/
def Outcome.lift {α : Type} (r : Except JsError α) : Outcome α :=
  { sent := [], result := r }

/-- Sequencing with `await`: a rejection skips the continuation. -/
def Outcome.bind {α β : Type} (o : Outcome α) (f : α → Outcome β) : Outcome β :=
  match o.result with
  | .error e => { sent := o.sent, result := .error e }
  | .ok a => { sent := o.sent ++ (f a).sent, result := (f a).result }

/-- The callback `(e) => e.message` mapped over the elements of an array. -/
def mapMessage : List JsVal → Except JsError (List JsVal)
  | [] => .ok []
  | e :: rest =>
    match getProp e "message" with
    | .error err => .error err
    | .ok m =>
      match mapMessage rest with
      | .error err => .error err
      | .ok ms => .ok (m :: ms)

/-- The statement `throw new Error(result.errors.map((e) => e.message).join(", "))`;
a value without a `map` method raises a TypeError instead. -/
def throwErrors (env : Runtime) (errors : JsVal) : Except JsError JsVal :=
  match errors with
  | .arr items =>
    match mapMessage items with
    | .error err => .error err
    | .ok messages => .error (.error (arrayJoin env ", " messages))
  | _ => .error .typeError

/-- The part of `graphqlRequest` after `await response.json()`. -/
def checkResult (env : Runtime) (result : JsVal) : Except JsError JsVal :=
  match getProp result "errors" with
  | .error err => .error err
  | .ok errors => if errors.truthy then throwErrors env errors else getProp result "data"

/-- The arguments `graphqlRequest` passes to `fetch`: a POST to `API_URL` with the
bearer credential and a JSON body made of the query and the variables. -/
def fetchArgs (ctx : Ctx) (query : String) (vars : JsVal) : Request :=
  { url := API_URL
    method := "POST"
    authorization := "Bearer " ++ ctx.token
    contentType := "application/json"
    query := query
    vars := vars }

/-- The function `graphqlRequest(query, variables = {})`: one request, then the
check of the decoded body. The parameter `variables` of the source is called
`vars` here; the default value stands in for `undefined`. -/
def graphqlRequest (ctx : Ctx) (query : String) (vars : JsVal) : Outcome JsVal :=
  let vars := match vars with
    | .undefined => JsVal.obj []
    | v => v
  let request := fetchArgs ctx query vars
  { sent := [request]
    result :=
      match ctx.remote request with
      | .error err => .error err
      | .ok result => checkResult ctx.env result }

/-! ## Enumerations and input schemas -/

/-- The values of `ContributionType`. -/
def ContributionType : List String :=
  ["SPEAKING", "BLOGPOST", "ARTICLE_PUBLICATION", "EVENT_ORGANIZATION", "HACKATHON",
   "OPEN_SOURCE_PROJECT", "VIDEO_PODCAST", "FORUM", "OTHER"]

/-- The values of `PlatformType`. -/
def PlatformType : List String :=
  ["TWITTER", "MEDIUM", "LINKEDIN", "README", "STACK_OVERFLOW", "DEV_TO", "MASTODON", "OTHER"]

/-- The schema constructors the program uses: `z.enum(options)`, `z.string()`,
`z.string().min(n)`, `z.string().url()`, `z.number()`, `z.boolean()`. -/
inductive ZType where
  | enum (options : List String)
  | string
  | stringMin (n : Nat)
  | stringUrl
  | number
  | boolean

/-- One key of a `z.object` shape; `optional` records `.optional()`. -/
structure ZField where
  key : String
  type : ZType
  optional : Bool

/-- Modelled from the spec: the checks of the schema library (its code is not
under src/). An enumerated field must be one of its allowed values, a string
with a minimum length must reach it, a URL must parse, a number must be a
number other than NaN, a boolean a boolean; a value of another type fails. -/
def ZType.accepts (env : Runtime) : ZType → JsVal → Bool
  | .enum options, .str s => decide (s ∈ options)
  | .string, .str _ => true
  | .stringMin n, .str s => decide (n ≤ s.length)
  | .stringUrl, .str s => env.isUrl s
  | .number, .num n => decide (n ≠ JsNumber.nan)
  | .boolean, .bool _ => true
  | _, _ => false

/-- Modelled from the spec: validation of the keys of an object schema against
the properties of the input, in the order of the shape. A key that is absent
passes only when it is optional; a key that is present must be accepted by its
type. The result holds the declared keys that were present. -/
def parseFields (env : Runtime) (props : List (String × JsVal)) :
    List ZField → Except JsError (List (String × JsVal))
  | [] => .ok []
  | f :: rest =>
    match lookupProp props f.key with
    | .undefined =>
      if f.optional then parseFields env props rest else .error (.validation f.key)
    | v =>
      if f.type.accepts env v then
        match parseFields env props rest with
        | .error err => .error err
        | .ok parsed => .ok ((f.key, v) :: parsed)
      else .error (.validation f.key)

/-- Modelled from the spec: `z.object(shape)` applied to the arguments of a tool
call; anything but an object fails. -/
def parseObject (env : Runtime) (shape : List ZField) (input : JsVal) :
    Except JsError (List (String × JsVal)) :=
  match input with
  | .obj props => parseFields env props shape
  | _ => .error (.validation "")

/-! ## Tool handlers -/

/-- One element of the `content` array of a tool result; `text` is `none` when
the expression evaluates to `undefined`. -/
structure TextContent where
  type : String
  text : Option String
  deriving DecidableEq, Repr

/-- The object a handler returns. -/
structure ToolResult where
  content : List TextContent
  deriving DecidableEq, Repr

/-- The return statement shared by the handlers that print a member of the
response: `{ content: [{ type: "text", text: JSON.stringify(data.member, null, 2) }] }`. -/
def jsonPayload (env : Runtime) (data : JsVal) (member : String) : Outcome ToolResult :=
  Outcome.lift
    (match getProp data member with
     | .error err => .error err
     | .ok v => .ok { content := [{ type := "text", text := env.stringify v }] })

/-- The return statement of the two deletion handlers: a template literal that
embeds `data.member.id`. -/
def deletedPayload (env : Runtime) (data : JsVal) (member : String) (lead : String) :
    Outcome ToolResult :=
  Outcome.lift
    (match getProp data member with
     | .error err => .error err
     | .ok deleted =>
       match getProp deleted "id" with
       | .error err => .error err
       | .ok id => .ok { content := [{ type := "text", text := some (lead ++ toStr env id) }] })

/-- The GraphQL document of `add_contribution`, character for character. -/
def addContributionQuery : String :=
  "
      mutation AddContribution(
        $type: ContributionType!
        $date: GraphQLDateTime!
        $title: String!
        $url: URL
        $description: String!
      ) \x7b
        createContribution(
          data: \x7b
            date: $date
            url: $url
            type: $type
            title: $title
            description: $description
          \x7d
        ) \x7b
          id
          title
          type
          date
          url
          description
        \x7d
      \x7d
    "

/-- The GraphQL document of `remove_contribution`, character for character. -/
def removeContributionQuery : String :=
  "
      mutation DeleteContribution($id: String!) \x7b
        deleteContribution(id: $id) \x7b
          id
        \x7d
      \x7d
    "

/-- The GraphQL document of `update_contribution`, character for character. -/
def updateContributionQuery : String :=
  "
      mutation UpdateContribution(
        $id: String!
        $type: ContributionType
        $date: GraphQLDateTime
        $title: String
        $url: URL
        $description: String
      ) \x7b
        updateContribution(
          id: $id
          data: \x7b
            date: $date
            url: $url
            type: $type
            title: $title
            description: $description
          \x7d
        ) \x7b
          id
          title
          type
          date
          url
          description
        \x7d
      \x7d
    "

/-- The GraphQL document of `list_contributions`, character for character. -/
def listContributionsQuery : String :=
  "
      query AllContributions($pagination: ContributionOffsetPaginationInput) \x7b
        allContributions(pagination: $pagination) \x7b
          id
          title
          type
          date
          url
          description
        \x7d
      \x7d
    "

/-- The GraphQL document of `add_link`, character for character. -/
def addLinkQuery : String :=
  "
      mutation CreateLink($link: URL, $platform: PlatformType) \x7b
        createLink(data: \x7b link: $link, platform: $platform \x7d) \x7b
          id
          link
          platform
        \x7d
      \x7d
    "

/-- The GraphQL document of `remove_link`, character for character. -/
def removeLinkQuery : String :=
  "
      mutation DeleteLink($id: String!) \x7b
        deleteLink(id: $id) \x7b
          id
        \x7d
      \x7d
    "

/-- The GraphQL document of `list_links`, character for character. -/
def listLinksQuery : String :=
  "
      query \x7b
        links \x7b
          id
          link
          platform
        \x7d
      \x7d
    "

/-- The GraphQL document of `get_public_profile`, character for character. -/
def getPublicProfileQuery : String :=
  "
      query PublicProfile($username: String!) \x7b
        publicProfile(username: $username) \x7b
          id
          username
          name
          bio
          avatar
          status
          featured
          country
          contributions \x7b
            id
            title
            type
            date
            url
            description
          \x7d
          links \x7b
            id
            link
            platform
          \x7d
        \x7d
      \x7d
    "

/-- The GraphQL document of `search_stars`, character for character. -/
def searchStarsQuery : String :=
  "
      query StarsPublicData($featured: Boolean) \x7b
        starsPublicData(featured: $featured) \x7b
          id
          username
          name
          bio
          avatar
          status
          featured
          country
        \x7d
      \x7d
    "

/-- The GraphQL document of `get_logged_user`, character for character. -/
def getLoggedUserQuery : String :=
  "
      query \x7b
        loggedUser \x7b
          id
          username
          avatar
          email
          nominee \x7b
            status
            name
            bio
            featured
            country
            jobTitle
            company
          \x7d
        \x7d
      \x7d
    "

/-- The handler of `add_contribution`. -/
def add_contribution (ctx : Ctx) (args : List (String × JsVal)) : Outcome ToolResult :=
  let type := lookupProp args "type"
  let title := lookupProp args "title"
  let description := lookupProp args "description"
  let url := lookupProp args "url"
  let date := lookupProp args "date"
  match toISOString (newDate ctx.env date) with
  | .error err => Outcome.lift (.error err)
  | .ok iso =>
    let vars := JsVal.obj
      [("type", type), ("title", title), ("description", description),
       ("url", jsOr url .null), ("date", .str iso)]
    (graphqlRequest ctx addContributionQuery vars).bind fun data =>
    jsonPayload ctx.env data "createContribution"

/-- The handler of `remove_contribution`. -/
def remove_contribution (ctx : Ctx) (args : List (String × JsVal)) : Outcome ToolResult :=
  let id := lookupProp args "id"
  (graphqlRequest ctx removeContributionQuery (.obj [("id", id)])).bind fun data =>
  deletedPayload ctx.env data "deleteContribution" "Successfully deleted contribution with ID: "

/-- The expression `date ? new Date(date).toISOString() : null`. -/
def dateOrNull (env : Runtime) (date : JsVal) : Except JsError JsVal :=
  if date.truthy then
    match toISOString (newDate env date) with
    | .error err => .error err
    | .ok iso => .ok (.str iso)
  else .ok .null

/-- The handler of `update_contribution`. -/
def update_contribution (ctx : Ctx) (args : List (String × JsVal)) : Outcome ToolResult :=
  let id := lookupProp args "id"
  let type := lookupProp args "type"
  let title := lookupProp args "title"
  let description := lookupProp args "description"
  let url := lookupProp args "url"
  let date := lookupProp args "date"
  match dateOrNull ctx.env date with
  | .error err => Outcome.lift (.error err)
  | .ok dateVar =>
    let vars := JsVal.obj
      [("id", id), ("type", jsOr type .null), ("title", jsOr title .null),
       ("description", jsOr description .null), ("url", jsOr url .null), ("date", dateVar)]
    (graphqlRequest ctx updateContributionQuery vars).bind fun data =>
    jsonPayload ctx.env data "updateContribution"

/-- The expression `first || offset ? { first, offset } : null`. -/
def paginationOf (first offset : JsVal) : JsVal :=
  if (jsOr first offset).truthy then .obj [("first", first), ("offset", offset)] else .null

/-- The handler of `list_contributions`. -/
def list_contributions (ctx : Ctx) (args : List (String × JsVal)) : Outcome ToolResult :=
  let first := lookupProp args "first"
  let offset := lookupProp args "offset"
  let vars := JsVal.obj [("pagination", paginationOf first offset)]
  (graphqlRequest ctx listContributionsQuery vars).bind fun data =>
  jsonPayload ctx.env data "allContributions"

/-- The handler of `add_link`. -/
def add_link (ctx : Ctx) (args : List (String × JsVal)) : Outcome ToolResult :=
  let link := lookupProp args "link"
  let platform := lookupProp args "platform"
  (graphqlRequest ctx addLinkQuery (.obj [("link", link), ("platform", platform)])).bind
    fun data =>
  jsonPayload ctx.env data "createLink"

/-- The handler of `remove_link`. -/
def remove_link (ctx : Ctx) (args : List (String × JsVal)) : Outcome ToolResult :=
  let id := lookupProp args "id"
  (graphqlRequest ctx removeLinkQuery (.obj [("id", id)])).bind fun data =>
  deletedPayload ctx.env data "deleteLink" "Successfully deleted link with ID: "

/-- The handler of `list_links`; it passes no variables. -/
def list_links (ctx : Ctx) (_args : List (String × JsVal)) : Outcome ToolResult :=
  (graphqlRequest ctx listLinksQuery .undefined).bind fun data =>
  jsonPayload ctx.env data "links"

/-- The handler of `get_public_profile`. -/
def get_public_profile (ctx : Ctx) (args : List (String × JsVal)) : Outcome ToolResult :=
  let username := lookupProp args "username"
  (graphqlRequest ctx getPublicProfileQuery (.obj [("username", username)])).bind fun data =>
  jsonPayload ctx.env data "publicProfile"

/-- The handler of `search_stars`. -/
def search_stars (ctx : Ctx) (args : List (String × JsVal)) : Outcome ToolResult :=
  let featured := lookupProp args "featured"
  (graphqlRequest ctx searchStarsQuery (.obj [("featured", jsNullish featured .null)])).bind
    fun data =>
  jsonPayload ctx.env data "starsPublicData"

/-- The handler of `get_logged_user`; it passes no variables. -/
def get_logged_user (ctx : Ctx) (_args : List (String × JsVal)) : Outcome ToolResult :=
  (graphqlRequest ctx getLoggedUserQuery .undefined).bind fun data =>
  jsonPayload ctx.env data "loggedUser"

/-! ## The tool registrations and the start-up of the module -/

/-- The arguments of one `server.tool(name, description, schema, handler)` call. -/
structure Tool where
  name : String
  description : String
  shape : List ZField
  handler : Ctx → List (String × JsVal) → Outcome ToolResult

/-- The registration of `add_contribution`. -/
def addContributionTool : Tool :=
  { name := "add_contribution"
    description := "Add a new contribution to your GitHub Stars profile."
    shape :=
      [⟨"type", .enum ContributionType, false⟩, ⟨"title", .stringMin 1, false⟩,
       ⟨"description", .stringMin 1, false⟩, ⟨"url", .stringUrl, true⟩,
       ⟨"date", .string, false⟩]
    handler := add_contribution }

/-- The registration of `remove_contribution`. -/
def removeContributionTool : Tool :=
  { name := "remove_contribution"
    description := "Delete a contribution from your GitHub Stars profile."
    shape := [⟨"id", .stringMin 1, false⟩]
    handler := remove_contribution }

/-- The registration of `update_contribution`. -/
def updateContributionTool : Tool :=
  { name := "update_contribution"
    description := "Update an existing contribution on your GitHub Stars profile."
    shape :=
      [⟨"id", .stringMin 1, false⟩, ⟨"type", .enum ContributionType, true⟩,
       ⟨"title", .stringMin 1, true⟩, ⟨"description", .stringMin 1, true⟩,
       ⟨"url", .stringUrl, true⟩, ⟨"date", .string, true⟩]
    handler := update_contribution }

/-- The registration of `list_contributions`. -/
def listContributionsTool : Tool :=
  { name := "list_contributions"
    description := "Get all your contributions from your GitHub Stars profile."
    shape := [⟨"first", .number, true⟩, ⟨"offset", .number, true⟩]
    handler := list_contributions }

/-- The registration of `add_link`. -/
def addLinkTool : Tool :=
  { name := "add_link"
    description := "Add a profile link to your GitHub Stars profile."
    shape := [⟨"link", .stringUrl, false⟩, ⟨"platform", .enum PlatformType, false⟩]
    handler := add_link }

/-- The registration of `remove_link`. -/
def removeLinkTool : Tool :=
  { name := "remove_link"
    description := "Delete a profile link from your GitHub Stars profile."
    shape := [⟨"id", .stringMin 1, false⟩]
    handler := remove_link }

/-- The registration of `list_links`. -/
def listLinksTool : Tool :=
  { name := "list_links"
    description := "Get all profile links from your GitHub Stars profile."
    shape := []
    handler := list_links }

/-- The registration of `get_public_profile`. -/
def getPublicProfileTool : Tool :=
  { name := "get_public_profile"
    description := "Get a GitHub Star\x27s public profile by username."
    shape := [⟨"username", .stringMin 1, false⟩]
    handler := get_public_profile }

/-- The registration of `search_stars`. -/
def searchStarsTool : Tool :=
  { name := "search_stars"
    description := "Search and list GitHub Stars public data."
    shape := [⟨"featured", .boolean, true⟩]
    handler := search_stars }

/-- The registration of `get_logged_user`. -/
def getLoggedUserTool : Tool :=
  { name := "get_logged_user"
    description := "Get information about the currently logged-in user."
    shape := []
    handler := get_logged_user }

/-- The `server.tool` calls of the module, in source order. -/
def registrations : List Tool :=
  [addContributionTool, removeContributionTool, updateContributionTool,
   listContributionsTool, addLinkTool, removeLinkTool, listLinksTool,
   getPublicProfileTool, searchStarsTool, getLoggedUserTool]

/-- The state of the process while the module body runs: what was written to the
error stream, the exit status once the process has ended, the registered tools
in registration order, and whether the transport is connected. -/
structure Proc where
  stderr : List String
  exitCode : Option Nat
  tools : List Tool
  connected : Bool

/-- The state before the first statement. -/
def Proc.start : Proc :=
  { stderr := [], exitCode := none, tools := [], connected := false }

/-- The diagnostic of the credential check. -/
def missingTokenMessage : String :=
  "Error: GITHUB_STARS_TOKEN environment variable is required"

/-- The top-level statements of the module that act on the process. -/
inductive Stmt where
  | checkToken
  | tool (t : Tool)
  | connect

/-- Modelled from the spec: `server.tool` of the server library (not under
src/), whose registry requires unique names: registering a name twice throws,
and the uncaught exception ends the process with status 1. -/
def server_tool (t : Tool) (p : Proc) : Proc :=
  if p.tools.any (fun u => u.name == t.name) then
    { p with exitCode := some 1 }
  else { p with tools := p.tools ++ [t] }

/-- One statement. `checkToken` is the block
`if (!GITHUB_STARS_TOKEN) { console.error(...); process.exit(1); }`, where
`tokenVar` is `process.env.GITHUB_STARS_TOKEN` (`none` when the variable is unset). -/
def Stmt.exec (tokenVar : Option String) : Stmt → Proc → Proc
  | .checkToken, p =>
    let GITHUB_STARS_TOKEN : JsVal := match tokenVar with
      | none => .undefined
      | some s => .str s
    if !GITHUB_STARS_TOKEN.truthy then
      { p with
        stderr := p.stderr ++ [missingTokenMessage]
        exitCode := some 1 }
    else p
  | .tool t, p => server_tool t p
  | .connect, p => { p with connected := true }

/-- Statements run in order; nothing runs once the process has exited. -/
def runStmts (tokenVar : Option String) : List Stmt → Proc → Proc
  | [], p => p
  | s :: rest, p =>
    match p.exitCode with
    | some _ => p
    | none => runStmts tokenVar rest (s.exec tokenVar p)

/-- The module body: the credential check, the ten registrations, the connection
of the transport. -/
def moduleBody : List Stmt :=
  Stmt.checkToken :: registrations.map Stmt.tool ++ [Stmt.connect]

/-- The process state after the module body has run. -/
def startup (tokenVar : Option String) : Proc :=
  runStmts tokenVar moduleBody Proc.start

/-- Modelled from the spec: the call path of the server library (not under
src/). A call to a name that is not registered fails; the arguments are
validated against the declared schema and a violation is rejected before the
handler runs; otherwise the handler runs on the validated arguments. -/
def callTool (ctx : Ctx) (tools : List Tool) (name : String) (input : JsVal) :
    Outcome ToolResult :=
  match tools.find? (fun t => t.name == name) with
  | none => Outcome.lift (.error (.protocol name))
  | some t =>
    match parseObject ctx.env t.shape input with
    | .error err => Outcome.lift (.error err)
    | .ok args => t.handler ctx args

/-! ## A concrete engine

The statements about the handlers hold for every `Runtime`. To evaluate the
program on concrete inputs, and to state what normalization does to a date that
is written in the standard format, one engine is fixed here: its local time zone is UTC, its
`Date.parse` recognises the ECMAScript date-time string format and nothing else
(the language leaves every other string to the implementation), and its
`new URL` is reduced to the check of an `http` or `https` origin. -/

/-- The value of a decimal digit. -/
def digitVal (c : Char) : Option Nat :=
  if '0' ≤ c ∧ c ≤ '9' then some (c.toNat - 48) else none

/-- Exactly `width` decimal digits at the head of a string: their value and the
rest of the string. -/
def takeDigits : Nat → List Char → Option (Nat × List Char)
  | 0, cs => some (0, cs)
  | width + 1, cs =>
    match takeDigits width cs with
    | some (hi, c :: rest) => (digitVal c).map fun d => (10 * hi + d, rest)
    | _ => none

/-- Leap years of the proleptic Gregorian calendar. -/
def isLeapYear (y : Int) : Bool :=
  decide (y % 4 = 0) && (decide (y % 100 ≠ 0) || decide (y % 400 = 0))

/-- The number of days of a month. -/
def daysInMonth (y : Int) (m : Nat) : Nat :=
  if m = 2 then (if isLeapYear y then 29 else 28)
  else if m = 4 ∨ m = 6 ∨ m = 9 ∨ m = 11 then 30 else 31

/-- The day number, counted from 1970-01-01, of a proleptic Gregorian date. -/
def daysFromCivil (y : Int) (m d : Nat) : Int :=
  let y1 : Int := if m ≤ 2 then y - 1 else y
  let era := y1 / 400
  let yoe := y1 % 400
  let mp : Int := if 2 < m then (m : Int) - 3 else (m : Int) + 9
  let doy := (153 * mp + 2) / 5 + (d : Int) - 1
  let doe := yoe * 365 + yoe / 4 - yoe / 100 + doy
  era * 146097 + doe - 719468

/-- The year at the head of a date-time string: four digits, or a sign and six
digits (minus zero is excluded). -/
def parseYear : List Char → Option (Int × List Char)
  | [] => none
  | c :: rest =>
    if c = '+' then (takeDigits 6 rest).map fun (n, r) => ((n : Int), r)
    else if c = '-' then
      (takeDigits 6 rest).bind fun (n, r) => if n = 0 then none else some (-(n : Int), r)
    else (takeDigits 4 (c :: rest)).map fun (n, r) => ((n : Int), r)

/-- A separator and two digits when the string goes on with the separator, the
default otherwise. -/
def parseField (sep : Char) (dflt : Nat) : List Char → Option (Nat × List Char)
  | [] => some (dflt, [])
  | c :: rest => if c = sep then takeDigits 2 rest else some (dflt, c :: rest)

/-- The seconds and milliseconds after the minutes: nothing, `:ss` or `:ss.sss`. -/
def parseSeconds : List Char → Option (Nat × Nat × List Char)
  | ':' :: rest =>
    (takeDigits 2 rest).bind fun (sec, r) =>
      match r with
      | '.' :: r1 => (takeDigits 3 r1).map fun (ms, r2) => (sec, ms, r2)
      | _ => some (sec, 0, r)
  | cs => some (0, 0, cs)

/-- The offset in minutes east of UTC at the end of a date-time string; the
empty suffix is local time, which is UTC in this engine. -/
def parseOffset : List Char → Option Int
  | [] => some 0
  | ['Z'] => some 0
  | s :: rest =>
    (takeDigits 2 rest).bind fun (h, r) =>
      match r with
      | ':' :: r1 =>
        match takeDigits 2 r1 with
        | some (m, []) =>
          if h ≤ 23 ∧ m ≤ 59 then
            (if s = '+' then some ((h * 60 + m : Nat) : Int)
             else if s = '-' then some (-((h * 60 + m : Nat) : Int)) else none)
          else none
        | _ => none
      | _ => none

/-- The time of day in milliseconds minus the offset, after the letter T. -/
def parseTime (cs : List Char) : Option Int :=
  (takeDigits 2 cs).bind fun (h, r) =>
    match r with
    | ':' :: r1 =>
      (takeDigits 2 r1).bind fun (mi, r2) =>
      (parseSeconds r2).bind fun (sec, ms, r3) =>
      (parseOffset r3).bind fun off =>
        if (h ≤ 23 ∧ mi ≤ 59 ∧ sec ≤ 59) ∨ (h = 24 ∧ mi = 0 ∧ sec = 0 ∧ ms = 0) then
          some ((((h * 60 + mi) * 60 + sec) * 1000 + ms : Nat) - off * 60000)
        else none
    | _ => none

/-- The time value of a string in the ECMAScript date-time string format, `none`
for every other string. A date without a time is UTC. -/
def isoDateParse (s : String) : Option Int :=
  (parseYear s.data).bind fun (y, r0) =>
  (parseField '-' 1 r0).bind fun (m, r1) =>
  (parseField '-' 1 r1).bind fun (d, r2) =>
    if 1 ≤ m ∧ m ≤ 12 ∧ 1 ≤ d ∧ d ≤ daysInMonth y m then
      match r2 with
      | [] => some (daysFromCivil y m d * msPerDay)
      | 'T' :: time => (parseTime time).map fun ms => daysFromCivil y m d * msPerDay + ms
      | _ => none
    else none

/-- The text of a plain date: four digits of the year, two of the month and two
of the day, separated by hyphens. -/
def plainDate (y m d : Nat) : String :=
  String.mk (padDigits 4 y ++ '-' :: padDigits 2 m ++ '-' :: padDigits 2 d)

/-- The URL check of the concrete engine: `http://` or `https://` followed by a
letter or a digit, and no blank anywhere. -/
def simpleUrl (s : String) : Bool :=
  let ok (rest : List Char) : Bool :=
    match rest with
    | c :: _ => c.isAlphanum && !s.data.any Char.isWhitespace
    | [] => false
  match s.data with
  | 'h' :: 't' :: 't' :: 'p' :: ':' :: '/' :: '/' :: rest => ok rest
  | 'h' :: 't' :: 't' :: 'p' :: 's' :: ':' :: '/' :: '/' :: rest => ok rest
  | _ => false

/-- The decimal digits of a natural number, by repeated division (`fuel` bounds
the number of digits). -/
def natDigits : Nat → Nat → List Char
  | 0, _ => []
  | fuel + 1, n => if n < 10 then [digitChar n] else natDigits fuel (n / 10) ++ [digitChar n]

/-- The string of an integral number below ten to the 21 in magnitude. -/
def intToString (i : Int) : String :=
  String.mk ((if i < 0 then ['-'] else []) ++ natDigits 22 i.natAbs)

/-- The number-to-string conversion of the concrete engine, exact on the
integral values the examples use; a value with a fractional part is printed by
its integral part. -/
def simpleNumToString : JsNumber → String
  | .finite mant exp =>
    if 0 ≤ exp then intToString (mant * 2 ^ exp.toNat)
    else intToString (Int.tdiv mant (2 ^ (-exp).toNat))
  | .negZero => "0"
  | .inf false => "Infinity"
  | .inf true => "-Infinity"
  | .nan => "NaN"

/-- The quoted form of a string in JSON, for strings without control characters. -/
def quoteJson (s : String) : String :=
  String.mk ('"' :: s.data.flatMap (fun c =>
    if c = '"' then ['\\', '"'] else if c = '\\' then ['\\', '\\'] else [c]) ++ ['"'])

mutual
/-- The text `JSON.stringify(v, null, 2)` of a value that is not `undefined`, at
the given indentation. -/
def prettyJson (indent : String) : JsVal → String
  | .undefined => "null"
  | .null => "null"
  | .bool true => "true"
  | .bool false => "false"
  | .num (.finite mant exp) => simpleNumToString (.finite mant exp)
  | .num .negZero => "0"
  | .num _ => "null"
  | .str s => quoteJson s
  | .arr [] => "[]"
  | .arr (x :: xs) =>
    "[\n" ++ ",\n".intercalate (prettyItems (indent ++ "  ") (x :: xs)) ++ "\n" ++ indent ++ "]"
  | .obj props =>
    match prettyProps (indent ++ "  ") props with
    | [] => "\x7b\x7d"
    | lines => "\x7b\n" ++ ",\n".intercalate lines ++ "\n" ++ indent ++ "\x7d"
/-- The lines of the elements of an array. -/
def prettyItems (indent : String) : List JsVal → List String
  | [] => []
  | v :: rest => (indent ++ prettyJson indent v) :: prettyItems indent rest
/-- The lines of the properties of an object; a property whose value is
`undefined` is left out. -/
def prettyProps (indent : String) : List (String × JsVal) → List String
  | [] => []
  | (_, .undefined) :: rest => prettyProps indent rest
  | (k, v) :: rest =>
    (indent ++ quoteJson k ++ ": " ++ prettyJson indent v) :: prettyProps indent rest
end

/-- The call `JSON.stringify(v, null, 2)` in the concrete engine. -/
def simpleStringify : JsVal → Option String
  | .undefined => none
  | v => some (prettyJson "" v)

/-- The concrete engine. -/
def refRuntime : Runtime :=
  { dateParse := isoDateParse
    isUrl := simpleUrl
    isUrl_empty := by decide
    numToString := simpleNumToString
    stringify := simpleStringify }

/-- The relation between the elements of an `errors` list and their messages:
each element is an object whose `message` member is the given string. -/
def HasMessage (e : JsVal) (m : String) : Prop :=
  ∃ props, e = .obj props ∧ lookupProp props "message" = .str m

/-- The remote service that answers every request with the same decoded body. -/
def constRemote (response : JsVal) : Remote :=
  fun _ => .ok response

/-- The names under which the module registers its tools, in source order. -/
def toolNames : List String :=
  ["add_contribution", "remove_contribution", "update_contribution", "list_contributions",
   "add_link", "remove_link", "list_links", "get_public_profile", "search_stars",
   "get_logged_user"]

/-- The decoded body of a successful deletion: `data` holds one member, named
after the mutation, with the identifier of the deleted record. -/
def deletionResponse (member id : String) : JsVal :=
  .obj [("data", .obj [(member, .obj [("id", .str id)])])]

/-- A call that was refused by validation: the result is a validation error and
no request was sent. -/
def Rejected (o : Outcome ToolResult) : Prop :=
  o.sent = [] ∧ ∃ field, o.result = .error (.validation field)

/-! ## Basic facts about the embedding -/

theorem Outcome.bind_sent_of_silent {α β : Type} (o : Outcome α) (f : α → Outcome β)
    (hf : ∀ a, (f a).sent = []) : (o.bind f).sent = o.sent := by
  unfold Outcome.bind
  cases o.result with
  | error e => rfl
  | ok a => simp [hf a]

theorem Outcome.bind_result_of_error {α β : Type} (o : Outcome α) (f : α → Outcome β)
    (e : JsError) (h : o.result = .error e) : (o.bind f).result = .error e := by
  unfold Outcome.bind
  rw [h]

theorem Outcome.bind_result_of_ok {α β : Type} (o : Outcome α) (f : α → Outcome β)
    (a : α) (h : o.result = .ok a) : (o.bind f).result = (f a).result := by
  unfold Outcome.bind
  rw [h]

theorem jsonPayload_sent (env : Runtime) (data : JsVal) (member : String) :
    (jsonPayload env data member).sent = [] := rfl

theorem deletedPayload_sent (env : Runtime) (data : JsVal) (member lead : String) :
    (deletedPayload env data member lead).sent = [] := rfl

theorem graphqlRequest_sent (ctx : Ctx) (query : String) (vars : JsVal) :
    (graphqlRequest ctx query vars).sent =
      [fetchArgs ctx query (match vars with | .undefined => .obj [] | v => v)] := rfl

theorem graphqlRequest_result (ctx : Ctx) (query : String) (vars response : JsVal)
    (hremote : ∀ req, ctx.remote req = .ok response) :
    (graphqlRequest ctx query vars).result = checkResult ctx.env response := by
  unfold graphqlRequest
  simp only [hremote]

/-- A request followed by a payload step issues exactly the one request. -/
theorem request_then_payload_sent (ctx : Ctx) (query : String) (vars : JsVal)
    (f : JsVal → Outcome ToolResult) (hf : ∀ a, (f a).sent = []) :
    ((graphqlRequest ctx query vars).bind f).sent =
      [fetchArgs ctx query (match vars with | .undefined => .obj [] | v => v)] := by
  rw [Outcome.bind_sent_of_silent _ _ hf, graphqlRequest_sent]

/-- No schema type accepts `undefined`. -/
theorem ZType.accepts_undefined (env : Runtime) (t : ZType) :
    t.accepts env .undefined = false := by
  cases t <;> rfl

/-- What validation establishes: the validated arguments agree with the input on
every declared key that is read, and each declared key is either absent and
optional, or present and accepted by its type. -/
theorem parseFields_sound (env : Runtime) (props : List (String × JsVal)) :
    ∀ (shape : List ZField) (args : List (String × JsVal)),
      parseFields env props shape = .ok args →
      (∀ f ∈ shape, (lookupProp props f.key = .undefined ∧ f.optional = true) ∨
          f.type.accepts env (lookupProp props f.key) = true) ∧
      (∀ k, lookupProp args k = .undefined ∨ lookupProp args k = lookupProp props k) ∧
      ((shape.map ZField.key).Nodup →
        ∀ f ∈ shape, lookupProp args f.key = lookupProp props f.key) := by
  intro shape
  induction shape with
  | nil =>
    intro args h
    simp only [parseFields, Except.ok.injEq] at h
    subst h
    simp [lookupProp]
  | cons f rest ih =>
    intro args h
    by_cases hv : lookupProp props f.key = .undefined
    · -- the key is absent
      have h1 : parseFields env props (f :: rest) =
          if f.optional then parseFields env props rest else .error (.validation f.key) := by
        simp only [parseFields, hv]
      rw [h1] at h
      by_cases hopt : f.optional = true
      · rw [if_pos hopt] at h
        obtain ⟨ih1, ih2, ih3⟩ := ih args h
        refine ⟨?_, ih2, ?_⟩
        · intro g hg
          rcases List.mem_cons.mp hg with rfl | hg
          · exact Or.inl ⟨hv, hopt⟩
          · exact ih1 g hg
        · intro hnodup g hg
          simp only [List.map_cons, List.nodup_cons] at hnodup
          rcases List.mem_cons.mp hg with rfl | hg
          · rcases ih2 g.key with h0 | h0
            · rw [h0, hv]
            · exact h0
          · exact ih3 hnodup.2 g hg
      · rw [if_neg hopt] at h
        cases h
    · -- the key is present
      have h1 : parseFields env props (f :: rest) =
          if f.type.accepts env (lookupProp props f.key) then
            (match parseFields env props rest with
             | .error err => .error err
             | .ok parsed => .ok ((f.key, lookupProp props f.key) :: parsed))
          else .error (.validation f.key) := by
        cases hl : lookupProp props f.key with
        | undefined => exact absurd hl hv
        | _ => simp only [parseFields, hl]
      rw [h1] at h
      by_cases hacc : f.type.accepts env (lookupProp props f.key) = true
      · rw [if_pos hacc] at h
        cases hrest : parseFields env props rest with
        | error err => rw [hrest] at h; cases h
        | ok parsed =>
          rw [hrest] at h
          simp only [Except.ok.injEq] at h
          subst h
          obtain ⟨ih1, ih2, ih3⟩ := ih parsed hrest
          refine ⟨?_, ?_, ?_⟩
          · intro g hg
            rcases List.mem_cons.mp hg with rfl | hg
            · exact Or.inr hacc
            · exact ih1 g hg
          · intro k
            by_cases hk : f.key = k
            · right
              simp only [lookupProp, hk, if_true]
            · simp only [lookupProp, hk, if_false]
              exact ih2 k
          · intro hnodup g hg
            simp only [List.map_cons, List.nodup_cons] at hnodup
            rcases List.mem_cons.mp hg with rfl | hg
            · simp only [lookupProp, if_true]
            · have hne : f.key ≠ g.key := by
                intro heq
                exact hnodup.1 (heq ▸ List.mem_map_of_mem ZField.key hg)
              simp only [lookupProp, hne, if_false]
              exact ih3 hnodup.2 g hg
      · rw [if_neg hacc] at h
        cases h

/-- Validation of an object input, for a shape whose keys are distinct. -/
theorem parseObject_sound (env : Runtime) (shape : List ZField) (props args : List (String × JsVal))
    (hnodup : (shape.map ZField.key).Nodup)
    (h : parseObject env shape (.obj props) = .ok args) :
    ∀ f ∈ shape, lookupProp args f.key = lookupProp props f.key ∧
      ((lookupProp props f.key = .undefined ∧ f.optional = true) ∨
        f.type.accepts env (lookupProp props f.key) = true) := by
  intro f hf
  obtain ⟨h1, _, h3⟩ := parseFields_sound env props shape args h
  exact ⟨h3 hnodup f hf, h1 f hf⟩

/-- Every registered tool is found under its own name, and a call to it validates
the input against its shape before its handler runs. -/
theorem callTool_of_mem (ctx : Ctx) (t : Tool) (ht : t ∈ registrations) (input : JsVal) :
    callTool ctx registrations t.name input =
      match parseObject ctx.env t.shape input with
      | .error err => Outcome.lift (.error err)
      | .ok args => t.handler ctx args := by
  simp only [registrations, List.mem_cons, List.mem_singleton, List.not_mem_nil, or_false] at ht
  rcases ht with rfl | rfl | rfl | rfl | rfl | rfl | rfl | rfl | rfl | rfl <;> rfl

/-- A string other than the empty one has at least one character. -/
theorem string_length_pos (X : String) (hX : X ≠ "") : 1 ≤ X.length := by
  rcases X with ⟨data⟩
  cases data with
  | nil => exact absurd rfl hX
  | cons c cs => simp [String.length]

/-- A string accepted by `z.string().url()` is not empty. -/
theorem url_accepted_truthy (env : Runtime) (v : JsVal)
    (h : ZType.stringUrl.accepts env v = true) : v.truthy = true := by
  cases v with
  | str s =>
    simp only [ZType.accepts] at h
    simp only [JsVal.truthy, decide_eq_true_eq]
    intro hs
    rw [hs, env.isUrl_empty] at h
    cases h
  | _ => simp [ZType.accepts] at h

/-- A string accepted by `z.string().min(1)` is not empty. -/
theorem min1_accepted_truthy (env : Runtime) (v : JsVal)
    (h : (ZType.stringMin 1).accepts env v = true) : v.truthy = true := by
  cases v with
  | str s =>
    simp only [ZType.accepts, decide_eq_true_eq] at h
    simp only [JsVal.truthy, decide_eq_true_eq]
    intro hs
    rw [hs] at h
    simp at h
  | _ => simp [ZType.accepts] at h

/-- A value accepted by the contribution-type enumeration is a non-empty string. -/
theorem contributionType_accepted_truthy (env : Runtime) (v : JsVal)
    (h : (ZType.enum ContributionType).accepts env v = true) : v.truthy = true := by
  cases v with
  | str s =>
    simp only [ZType.accepts, decide_eq_true_eq] at h
    simp only [JsVal.truthy, decide_eq_true_eq]
    intro hs
    rw [hs] at h
    simp [ContributionType] at h
  | _ => simp [ZType.accepts] at h

/-- The operator `||` with `null` on the right keeps a truthy value. -/
theorem jsOr_of_truthy (a b : JsVal) (h : a.truthy = true) : jsOr a b = a := by
  simp [jsOr, h]

/-- The pagination expression yields `null` exactly when both operands are falsy. -/
theorem paginationOf_eq_null_iff (first offset : JsVal) :
    paginationOf first offset = .null ↔ first.truthy = false ∧ offset.truthy = false := by
  unfold paginationOf jsOr
  by_cases h1 : first.truthy = true
  · simp [h1]
  · simp only [Bool.not_eq_true] at h1
    by_cases h2 : offset.truthy = true
    · simp [h1, h2]
    · simp only [Bool.not_eq_true] at h2
      simp [h1, h2]

/-- When one operand is truthy the pagination object carries both operands as they
are. -/
theorem paginationOf_of_truthy (first offset : JsVal)
    (h : first.truthy = true ∨ offset.truthy = true) :
    paginationOf first offset = .obj [("first", first), ("offset", offset)] := by
  unfold paginationOf jsOr
  rcases h with h | h
  · simp [h]
  · by_cases h1 : first.truthy = true
    · simp [h1]
    · simp [h1, h]

/-- The one request of `list_contributions`. -/
theorem list_contributions_sent (ctx : Ctx) (args : List (String × JsVal)) :
    (list_contributions ctx args).sent =
      [fetchArgs ctx listContributionsQuery
        (.obj [("pagination",
          paginationOf (lookupProp args "first") (lookupProp args "offset"))])] := by
  unfold list_contributions
  exact request_then_payload_sent ctx _ _ _ (fun a => jsonPayload_sent _ a _)

/-! ## C1: pagination of `list_contributions` -/

/-- C1, at the input `first: 0` without `offset`: the input passes the declared
schema and `first` is supplied, yet the one request that is sent carries `null`
as its `pagination` variable, as it does when nothing is supplied. -/
theorem list_contributions_first_zero_sends_null (ctx : Ctx) :
    parseObject ctx.env listContributionsTool.shape (.obj [("first", .num (.finite 0 0))])
        = .ok [("first", .num (.finite 0 0))] ∧
    (callTool ctx registrations "list_contributions"
        (.obj [("first", .num (.finite 0 0))])).sent.map (fun r => r.vars)
      = [.obj [("pagination", .null)]] := by
  refine ⟨rfl, ?_⟩
  have h : callTool ctx registrations "list_contributions"
      (.obj [("first", .num (.finite 0 0))])
        = list_contributions ctx [("first", .num (.finite 0 0))] := rfl
  rw [h, list_contributions_sent]
  rfl

/-- What `list_contributions` sends for any input that passes its schema: one
request whose `pagination` variable is `null` exactly when `first` and `offset`
are both absent or zero, and otherwise the object of the two members as they
were supplied (an absent one is `undefined`, which the JSON body leaves out). -/
theorem list_contributions_pagination (ctx : Ctx) (props args : List (String × JsVal))
    (hvalid : parseObject ctx.env listContributionsTool.shape (.obj props) = .ok args) :
    (callTool ctx registrations "list_contributions" (.obj props)).sent.map (fun r => r.vars)
      = [.obj [("pagination",
          paginationOf (lookupProp props "first") (lookupProp props "offset"))]] := by
  have hcall := callTool_of_mem ctx listContributionsTool (by simp [registrations]) (.obj props)
  rw [hvalid] at hcall
  have hs := parseObject_sound ctx.env listContributionsTool.shape props args (by decide) hvalid
  have h1 := (hs ⟨"first", .number, true⟩ (by simp [listContributionsTool])).1
  have h2 := (hs ⟨"offset", .number, true⟩ (by simp [listContributionsTool])).1
  simp only at h1 h2
  show (callTool ctx registrations listContributionsTool.name (.obj props)).sent.map _ = _
  rw [hcall]
  show (list_contributions ctx args).sent.map _ = _
  rw [list_contributions_sent, h1, h2]
  rfl

/-! ## C2 and C9: the error check of `graphqlRequest` -/

theorem mapMessage_of_messages (errs : List JsVal) (msgs : List String)
    (h : List.Forall₂ HasMessage errs msgs) :
    mapMessage errs = .ok (msgs.map JsVal.str) := by
  induction h with
  | nil => rfl
  | cons hhead _ ih =>
    obtain ⟨props, rfl, hm⟩ := hhead
    simp only [mapMessage, getProp, hm, ih, List.map_cons]

theorem joinItems_strs (env : Runtime) (msgs : List String) :
    joinItems env (msgs.map JsVal.str) = msgs := by
  induction msgs with
  | nil => simp [joinItems]
  | cons m rest ih => simp [joinItems, toStr, ih]

/-- The check of a decoded body whose `errors` member is a list of objects with
string messages: it throws the error made of the messages joined by a comma and
a blank. -/
theorem checkResult_of_messages (env : Runtime) (response : JsVal) (errs : List JsVal)
    (msgs : List String)
    (herrors : getProp response "errors" = .ok (.arr errs))
    (hmsgs : List.Forall₂ HasMessage errs msgs) :
    checkResult env response = .error (.error (", ".intercalate msgs)) := by
  simp only [checkResult, herrors, JsVal.truthy, if_true, throwErrors,
    mapMessage_of_messages errs msgs hmsgs, arrayJoin, joinItems_strs]

/-- A handler that has issued its request fails with the error of the request. -/
theorem handler_fails_of_request_fails (ctx : Ctx) (e : JsError)
    (hreq : ∀ query vars, (graphqlRequest ctx query vars).result = .error e) :
    ∀ t ∈ registrations, ∀ args,
      (t.handler ctx args).sent ≠ [] → (t.handler ctx args).result = .error e := by
  intro t ht args hsent
  simp only [registrations, List.mem_cons, List.mem_singleton, List.not_mem_nil, or_false] at ht
  rcases ht with rfl | rfl | rfl | rfl | rfl | rfl | rfl | rfl | rfl | rfl
  · show (add_contribution ctx args).result = _
    change (add_contribution ctx args).sent ≠ [] at hsent
    unfold add_contribution at hsent ⊢
    cases hd : toISOString (newDate ctx.env (lookupProp args "date")) with
    | error err => simp [hd, Outcome.lift] at hsent
    | ok iso =>
      simp only [hd]
      exact Outcome.bind_result_of_error _ _ e (hreq _ _)
  · exact Outcome.bind_result_of_error _ _ e (hreq _ _)
  · show (update_contribution ctx args).result = _
    change (update_contribution ctx args).sent ≠ [] at hsent
    unfold update_contribution at hsent ⊢
    cases hd : dateOrNull ctx.env (lookupProp args "date") with
    | error err => simp [hd, Outcome.lift] at hsent
    | ok dateVar =>
      simp only [hd]
      exact Outcome.bind_result_of_error _ _ e (hreq _ _)
  · exact Outcome.bind_result_of_error _ _ e (hreq _ _)
  · exact Outcome.bind_result_of_error _ _ e (hreq _ _)
  · exact Outcome.bind_result_of_error _ _ e (hreq _ _)
  · exact Outcome.bind_result_of_error _ _ e (hreq _ _)
  · exact Outcome.bind_result_of_error _ _ e (hreq _ _)
  · exact Outcome.bind_result_of_error _ _ e (hreq _ _)
  · exact Outcome.bind_result_of_error _ _ e (hreq _ _)

/-- C2: when the decoded response has an `errors` member that is a list of
objects with messages m1, ..., mn, `graphqlRequest` fails with the error whose
message is m1, ..., mn in that order joined by a comma and a blank, so no data
is returned; and every registered handler that has issued its request fails
with that same error. -/
theorem graphqlRequest_fails_with_joined_messages (ctx : Ctx) (response : JsVal)
    (errs : List JsVal) (msgs : List String)
    (hremote : ∀ req, ctx.remote req = .ok response)
    (herrors : getProp response "errors" = .ok (.arr errs))
    (hmsgs : List.Forall₂ HasMessage errs msgs) :
    (∀ query vars,
      (graphqlRequest ctx query vars).result = .error (.error (", ".intercalate msgs))) ∧
    (∀ t ∈ registrations, ∀ args, (t.handler ctx args).sent ≠ [] →
      (t.handler ctx args).result = .error (.error (", ".intercalate msgs))) := by
  have hreq : ∀ query vars,
      (graphqlRequest ctx query vars).result = .error (.error (", ".intercalate msgs)) := by
    intro query vars
    rw [graphqlRequest_result ctx query vars response hremote]
    exact checkResult_of_messages ctx.env response errs msgs herrors hmsgs
  exact ⟨hreq, handler_fails_of_request_fails ctx _ hreq⟩

theorem throwErrors_fails (env : Runtime) (errors : JsVal) :
    ∃ e, throwErrors env errors = .error e := by
  unfold throwErrors
  cases errors with
  | arr items =>
    cases h : mapMessage items with
    | error err => exact ⟨err, by simp only [h]⟩
    | ok messages => exact ⟨.error (arrayJoin env ", " messages), by simp only [h]⟩
  | _ => exact ⟨_, rfl⟩

/-- C9, at the decoded response with a `data` object and the empty `errors` list:
`graphqlRequest` does not return the data, it fails with the empty message. -/
theorem graphqlRequest_fails_on_empty_errors :
    (graphqlRequest
        ⟨refRuntime, "token",
          constRemote (.obj [("data", .obj [("links", .arr [])]), ("errors", .arr [])])⟩
        listLinksQuery .undefined).result = .error (.error "") ∧
    (graphqlRequest
        ⟨refRuntime, "token",
          constRemote (.obj [("data", .obj [("links", .arr [])]), ("errors", .arr [])])⟩
        listLinksQuery .undefined).result ≠ .ok (.obj [("links", .arr [])]) := by
  have h : (graphqlRequest
        ⟨refRuntime, "token",
          constRemote (.obj [("data", .obj [("links", .arr [])]), ("errors", .arr [])])⟩
        listLinksQuery .undefined).result = .error (.error "") := rfl
  refine ⟨h, ?_⟩
  rw [h]
  intro hc
  cases hc

/-- C9 as amended: for a decoded response object, `graphqlRequest` fails exactly
when the `errors` member is truthy, which every list is, the empty one
included; when it is absent or falsy the `data` member is returned unchanged. -/
theorem graphqlRequest_fails_iff_errors_truthy (ctx : Ctx) (query : String) (vars : JsVal)
    (props : List (String × JsVal))
    (hremote : ∀ req, ctx.remote req = .ok (.obj props)) :
    ((∃ e, (graphqlRequest ctx query vars).result = .error e) ↔
        (lookupProp props "errors").truthy = true) ∧
    ((lookupProp props "errors").truthy = false →
        (graphqlRequest ctx query vars).result = .ok (lookupProp props "data")) ∧
    (∀ items, lookupProp props "errors" = .arr items →
        ∃ e, (graphqlRequest ctx query vars).result = .error e) := by
  rw [graphqlRequest_result ctx query vars _ hremote]
  have hfalse : (lookupProp props "errors").truthy = false →
      checkResult ctx.env (.obj props) = .ok (lookupProp props "data") := by
    intro h
    simp [checkResult, getProp, h]
  have htrue : (lookupProp props "errors").truthy = true →
      ∃ e, checkResult ctx.env (.obj props) = .error e := by
    intro h
    obtain ⟨e, he⟩ := throwErrors_fails ctx.env (lookupProp props "errors")
    exact ⟨e, by simp [checkResult, getProp, h, he]⟩
  refine ⟨⟨?_, htrue⟩, hfalse, ?_⟩
  · rintro ⟨e, he⟩
    by_contra hn
    simp only [Bool.not_eq_true] at hn
    rw [hfalse hn] at he
    cases he
  · intro items hitems
    exact htrue (by rw [hitems]; rfl)

/-- The witness of the amended C9: a response with an empty `errors` list makes
the request fail, and one without `errors` returns its data. -/
theorem graphqlRequest_fails_iff_errors_truthy_witness :
    (∃ e, (graphqlRequest ⟨refRuntime, "token", constRemote (.obj [("errors", .arr [])])⟩
        listLinksQuery .undefined).result = .error e) ∧
    (graphqlRequest ⟨refRuntime, "token", constRemote (.obj [("data", .str "d")])⟩
        listLinksQuery .undefined).result = .ok (.str "d") :=
  ⟨(graphqlRequest_fails_iff_errors_truthy
      ⟨refRuntime, "token", constRemote (.obj [("errors", .arr [])])⟩ listLinksQuery .undefined
      [("errors", .arr [])] (fun _ => rfl)).2.2 [] rfl,
   (graphqlRequest_fails_iff_errors_truthy
      ⟨refRuntime, "token", constRemote (.obj [("data", .str "d")])⟩ listLinksQuery .undefined
      [("data", .str "d")] (fun _ => rfl)).2.1 rfl⟩

/-- The witness of C2: the two errors with messages A and B give the message
`A, B`. -/
theorem graphqlRequest_fails_with_joined_messages_witness :
    (graphqlRequest
        ⟨refRuntime, "token",
          constRemote (.obj [("errors",
            .arr [.obj [("message", .str "A")], .obj [("message", .str "B")]])])⟩
        listLinksQuery .undefined).result = .error (.error "A, B") :=
  (graphqlRequest_fails_with_joined_messages
    ⟨refRuntime, "token",
      constRemote (.obj [("errors",
        .arr [.obj [("message", .str "A")], .obj [("message", .str "B")]])])⟩
    (.obj [("errors", .arr [.obj [("message", .str "A")], .obj [("message", .str "B")]])])
    [.obj [("message", .str "A")], .obj [("message", .str "B")]] ["A", "B"]
    (fun _ => rfl) rfl
    (List.Forall₂.cons ⟨_, rfl, rfl⟩ (List.Forall₂.cons ⟨_, rfl, rfl⟩ List.Forall₂.nil))).1
    listLinksQuery .undefined

/-! ## C7: the two deletion tools -/

/-- C7: for every non-empty identifier X, `remove_contribution` called with
`id: X` sends the variables `id: X` in its one request and, when the remote
answers with `deleteContribution: id: X`, returns exactly one text payload,
`Successfully deleted contribution with ID: X`; `remove_link` does the same
with `deleteLink` and `Successfully deleted link with ID: X`. -/
theorem remove_tools_confirm_deleted_id (ctxC ctxL : Ctx) (X : String) (hX : X ≠ "")
    (hC : ∀ req, ctxC.remote req = .ok (deletionResponse "deleteContribution" X))
    (hL : ∀ req, ctxL.remote req = .ok (deletionResponse "deleteLink" X)) :
    ((callTool ctxC registrations "remove_contribution" (.obj [("id", .str X)])).sent.map
        (fun r => r.vars) = [.obj [("id", .str X)]] ∧
     (callTool ctxC registrations "remove_contribution" (.obj [("id", .str X)])).result =
        .ok { content :=
          [{ type := "text", text := some ("Successfully deleted contribution with ID: " ++ X) }] }) ∧
    ((callTool ctxL registrations "remove_link" (.obj [("id", .str X)])).sent.map
        (fun r => r.vars) = [.obj [("id", .str X)]] ∧
     (callTool ctxL registrations "remove_link" (.obj [("id", .str X)])).result =
        .ok { content :=
          [{ type := "text", text := some ("Successfully deleted link with ID: " ++ X) }] }) := by
  have hlen : 1 ≤ X.length := string_length_pos X hX
  have hparse : ∀ env : Runtime,
      parseObject env [⟨"id", .stringMin 1, false⟩] (.obj [("id", .str X)])
        = .ok [("id", .str X)] := by
    intro env
    simp [parseObject, parseFields, lookupProp, ZType.accepts, hlen]
  have hcallC : callTool ctxC registrations "remove_contribution" (.obj [("id", .str X)])
      = remove_contribution ctxC [("id", .str X)] := by
    have h := callTool_of_mem ctxC removeContributionTool (by simp [registrations])
      (.obj [("id", .str X)])
    rw [show removeContributionTool.shape = [⟨"id", .stringMin 1, false⟩] from rfl,
      hparse ctxC.env] at h
    exact h
  have hcallL : callTool ctxL registrations "remove_link" (.obj [("id", .str X)])
      = remove_link ctxL [("id", .str X)] := by
    have h := callTool_of_mem ctxL removeLinkTool (by simp [registrations])
      (.obj [("id", .str X)])
    rw [show removeLinkTool.shape = [⟨"id", .stringMin 1, false⟩] from rfl,
      hparse ctxL.env] at h
    exact h
  rw [hcallC, hcallL]
  refine ⟨⟨?_, ?_⟩, ⟨?_, ?_⟩⟩
  · unfold remove_contribution
    rw [request_then_payload_sent ctxC _ _ _ (fun a => deletedPayload_sent _ a _ _)]
    rfl
  · unfold remove_contribution
    rw [Outcome.bind_result_of_ok _ _ (.obj [("deleteContribution", .obj [("id", .str X)])])
      (by rw [graphqlRequest_result ctxC _ _ _ hC]; rfl)]
    rfl
  · unfold remove_link
    rw [request_then_payload_sent ctxL _ _ _ (fun a => deletedPayload_sent _ a _ _)]
    rfl
  · unfold remove_link
    rw [Outcome.bind_result_of_ok _ _ (.obj [("deleteLink", .obj [("id", .str X)])])
      (by rw [graphqlRequest_result ctxL _ _ _ hL]; rfl)]
    rfl

/-- The witness of C7, at the identifier X. -/
theorem remove_tools_confirm_deleted_id_witness :
    (callTool ⟨refRuntime, "token", constRemote (deletionResponse "deleteContribution" "X")⟩
        registrations "remove_contribution" (.obj [("id", .str "X")])).result =
      .ok { content :=
        [{ type := "text", text := some "Successfully deleted contribution with ID: X" }] } ∧
    (callTool ⟨refRuntime, "token", constRemote (deletionResponse "deleteLink" "X")⟩
        registrations "remove_link" (.obj [("id", .str "X")])).result =
      .ok { content :=
        [{ type := "text", text := some "Successfully deleted link with ID: X" }] } :=
  ⟨(remove_tools_confirm_deleted_id
      ⟨refRuntime, "token", constRemote (deletionResponse "deleteContribution" "X")⟩
      ⟨refRuntime, "token", constRemote (deletionResponse "deleteLink" "X")⟩
      "X" (by decide) (fun _ => rfl) (fun _ => rfl)).1.2,
   (remove_tools_confirm_deleted_id
      ⟨refRuntime, "token", constRemote (deletionResponse "deleteContribution" "X")⟩
      ⟨refRuntime, "token", constRemote (deletionResponse "deleteLink" "X")⟩
      "X" (by decide) (fun _ => rfl) (fun _ => rfl)).2.2⟩

/-! ## C8 and C10: the registry and the start-up -/

/-- A non-empty credential passes the check. -/
theorem checkToken_of_present (tok : String) (htok : tok ≠ "") (p : Proc) :
    Stmt.exec (some tok) .checkToken p = p := by
  simp [Stmt.exec, JsVal.truthy, htok]

/-- The registrations and the connection, run from the initial state. -/
theorem registrations_run (tokenVar : Option String) :
    runStmts tokenVar (registrations.map Stmt.tool ++ [Stmt.connect]) Proc.start =
      { stderr := [], exitCode := none, tools := registrations, connected := true } := by
  simp [runStmts, Stmt.exec, server_tool, registrations, Proc.start,
    addContributionTool, removeContributionTool, updateContributionTool, listContributionsTool,
    addLinkTool, removeLinkTool, listLinksTool, getPublicProfileTool, searchStarsTool,
    getLoggedUserTool]

/-- The process state after a start with a non-empty credential. -/
theorem startup_of_present (tok : String) (htok : tok ≠ "") :
    startup (some tok) =
      { stderr := [], exitCode := none, tools := registrations, connected := true } := by
  have h : startup (some tok) =
      runStmts (some tok) (registrations.map Stmt.tool ++ [Stmt.connect])
        (Stmt.exec (some tok) .checkToken Proc.start) := rfl
  rw [h, checkToken_of_present tok htok, registrations_run]

/-- The process state after a start without a credential. -/
theorem startup_of_missing (tokenVar : Option String)
    (h : tokenVar = none ∨ tokenVar = some "") :
    startup tokenVar =
      { stderr := [missingTokenMessage], exitCode := some 1, tools := [], connected := false } := by
  rcases h with rfl | rfl <;> rfl

/-- C8, on the registry after a start with the credential `token`: it holds ten
tools, not eleven. -/
theorem registry_size_is_not_eleven :
    (startup (some "token")).tools.length = 10 ∧ (startup (some "token")).tools.length ≠ 11 := by
  rw [startup_of_present "token" (by decide)]
  exact ⟨rfl, by decide⟩

/-- C8 as amended: the registry built at start-up (with a credential) holds
exactly ten tools, under the ten names of the source in registration order, and
these names are pairwise distinct. -/
theorem registry_has_ten_distinct_tools (tok : String) (htok : tok ≠ "") :
    (startup (some tok)).tools.length = 10 ∧
    (startup (some tok)).tools.map Tool.name = toolNames ∧
    ((startup (some tok)).tools.map Tool.name).Nodup := by
  rw [startup_of_present tok htok]
  exact ⟨rfl, rfl, by decide⟩

/-- The witness of the amended C8, with the credential `token`. -/
theorem registry_has_ten_distinct_tools_witness :
    (startup (some "token")).tools.length = 10 ∧
    (startup (some "token")).tools.map Tool.name = toolNames ∧
    ((startup (some "token")).tools.map Tool.name).Nodup :=
  registry_has_ten_distinct_tools "token" (by decide)

/-- C10: when the credential is missing (the variable is unset or empty) the
process ends with status 1 after writing the diagnostic, in the state reached
right after the check: nothing is registered, the transport is not connected,
and a call to any name reaches no handler and sends nothing. When the
credential is present the process does not exit, writes nothing, registers the
tools and connects the transport. -/
theorem startup_credential_gate (tokenVar : Option String) :
    ((tokenVar = none ∨ tokenVar = some "") →
      (startup tokenVar).exitCode = some 1 ∧
      (startup tokenVar).stderr = [missingTokenMessage] ∧
      (startup tokenVar).tools = [] ∧
      (startup tokenVar).connected = false ∧
      (∀ ctx name input,
        (callTool ctx (startup tokenVar).tools name input).sent = [] ∧
        (callTool ctx (startup tokenVar).tools name input).result = .error (.protocol name))) ∧
    (∀ tok, tokenVar = some tok → tok ≠ "" →
      (startup tokenVar).exitCode = none ∧
      (startup tokenVar).stderr = [] ∧
      (startup tokenVar).tools.map Tool.name = toolNames ∧
      (startup tokenVar).connected = true) := by
  constructor
  · intro h
    rw [startup_of_missing tokenVar h]
    exact ⟨rfl, rfl, rfl, rfl, fun _ _ _ => ⟨rfl, rfl⟩⟩
  · intro tok h htok
    subst h
    rw [startup_of_present tok htok]
    exact ⟨rfl, rfl, rfl, rfl⟩

/-- The witness of C10: an unset variable, and the credential `token`. -/
theorem startup_credential_gate_witness :
    ((startup none).exitCode = some 1 ∧ (startup none).tools = []) ∧
    ((startup (some "token")).exitCode = none ∧ (startup (some "token")).connected = true) :=
  ⟨⟨((startup_credential_gate none).1 (Or.inl rfl)).1,
    ((startup_credential_gate none).1 (Or.inl rfl)).2.2.1⟩,
   ⟨((startup_credential_gate (some "token")).2 "token" rfl (by decide)).1,
    ((startup_credential_gate (some "token")).2 "token" rfl (by decide)).2.2.2⟩⟩

/-! ## C4: enumerated fields -/

/-- A failed validation names a declared key that is absent though required, or
present though not accepted by its type. -/
theorem parseFields_error (env : Runtime) (props : List (String × JsVal)) :
    ∀ (shape : List ZField) (err : JsError),
      parseFields env props shape = .error err →
      ∃ f ∈ shape, err = .validation f.key ∧
        ((lookupProp props f.key = .undefined ∧ f.optional = false) ∨
          (lookupProp props f.key ≠ .undefined ∧
            f.type.accepts env (lookupProp props f.key) = false)) := by
  intro shape
  induction shape with
  | nil =>
    intro err h
    simp [parseFields] at h
  | cons f rest ih =>
    intro err h
    by_cases hv : lookupProp props f.key = .undefined
    · have h1 : parseFields env props (f :: rest) =
          if f.optional then parseFields env props rest else .error (.validation f.key) := by
        simp only [parseFields, hv]
      rw [h1] at h
      by_cases hopt : f.optional = true
      · rw [if_pos hopt] at h
        obtain ⟨g, hg, hrest⟩ := ih err h
        exact ⟨g, List.mem_cons_of_mem _ hg, hrest⟩
      · rw [if_neg hopt] at h
        simp only [Except.error.injEq] at h
        exact ⟨f, List.mem_cons_self _ _, h.symm, Or.inl ⟨hv, by simpa using hopt⟩⟩
    · have h1 : parseFields env props (f :: rest) =
          if f.type.accepts env (lookupProp props f.key) then
            (match parseFields env props rest with
             | .error err => .error err
             | .ok parsed => .ok ((f.key, lookupProp props f.key) :: parsed))
          else .error (.validation f.key) := by
        cases hl : lookupProp props f.key with
        | undefined => exact absurd hl hv
        | _ => simp only [parseFields, hl]
      rw [h1] at h
      by_cases hacc : f.type.accepts env (lookupProp props f.key) = true
      · rw [if_pos hacc] at h
        cases hrest : parseFields env props rest with
        | error err2 =>
          rw [hrest] at h
          simp only [Except.error.injEq] at h
          subst h
          obtain ⟨g, hg, hrest2⟩ := ih err2 hrest
          exact ⟨g, List.mem_cons_of_mem _ hg, hrest2⟩
        | ok parsed =>
          rw [hrest] at h
          cases h
      · rw [if_neg hacc] at h
        simp only [Except.error.injEq] at h
        exact ⟨f, List.mem_cons_self _ _, h.symm, Or.inr ⟨hv, by simpa using hacc⟩⟩

/-- A declared key that is present with a value its type does not accept makes
the call fail in validation, before the handler and without a request. -/
theorem callTool_rejected (ctx : Ctx) (t : Tool) (ht : t ∈ registrations)
    (props : List (String × JsVal)) (f : ZField) (hf : f ∈ t.shape)
    (hv : lookupProp props f.key ≠ .undefined)
    (hacc : f.type.accepts ctx.env (lookupProp props f.key) = false) :
    Rejected (callTool ctx registrations t.name (.obj props)) := by
  rw [callTool_of_mem ctx t ht]
  cases hp : parseObject ctx.env t.shape (.obj props) with
  | error err =>
    obtain ⟨g, _, herr, _⟩ := parseFields_error ctx.env props t.shape err hp
    exact ⟨rfl, g.key, by rw [herr]; rfl⟩
  | ok args =>
    obtain ⟨h1, _, _⟩ := parseFields_sound ctx.env props t.shape args hp
    rcases h1 f hf with ⟨h0, _⟩ | h0
    · exact absurd h0 hv
    · rw [hacc] at h0
      cases h0

/-- A declared key whose value its type accepts is not the key validation fails
on, when the keys of the shape are distinct. -/
theorem parseObject_not_rejected_at (env : Runtime) (shape : List ZField)
    (props : List (String × JsVal)) (f : ZField) (hf : f ∈ shape)
    (hnodup : (shape.map ZField.key).Nodup)
    (hacc : f.type.accepts env (lookupProp props f.key) = true) :
    parseObject env shape (.obj props) ≠ .error (.validation f.key) := by
  intro h
  obtain ⟨g, hg, herr, hfail⟩ := parseFields_error env props shape _ h
  simp only [JsError.validation.injEq] at herr
  have hgf : g = f := by
    have := List.inj_on_of_nodup_map hnodup hg hf herr.symm
    exact this
  subst hgf
  rcases hfail with ⟨h0, _⟩ | ⟨_, h0⟩
  · rw [h0, ZType.accepts_undefined] at hacc
    cases hacc
  · rw [h0] at hacc
    cases hacc

/-- C4: a `type` of `add_contribution` or `update_contribution` that is a string
outside the nine values of `ContributionType`, and a `platform` of `add_link`
outside the eight values of `PlatformType`, make the call fail in validation:
the handler does not run and no request is sent. A string inside the
enumeration is accepted for the field, so validation does not fail on it. -/
theorem enum_fields_validated (ctx : Ctx) (props : List (String × JsVal)) (s : String) :
    (lookupProp props "type" = .str s →
      (s ∉ ContributionType →
        Rejected (callTool ctx registrations "add_contribution" (.obj props)) ∧
        Rejected (callTool ctx registrations "update_contribution" (.obj props))) ∧
      (s ∈ ContributionType →
        (ZType.enum ContributionType).accepts ctx.env (lookupProp props "type") = true ∧
        parseObject ctx.env addContributionTool.shape (.obj props) ≠ .error (.validation "type") ∧
        parseObject ctx.env updateContributionTool.shape (.obj props)
          ≠ .error (.validation "type"))) ∧
    (lookupProp props "platform" = .str s →
      (s ∉ PlatformType →
        Rejected (callTool ctx registrations "add_link" (.obj props))) ∧
      (s ∈ PlatformType →
        (ZType.enum PlatformType).accepts ctx.env (lookupProp props "platform") = true ∧
        parseObject ctx.env addLinkTool.shape (.obj props) ≠ .error (.validation "platform"))) ∧
    ContributionType.length = 9 ∧ PlatformType.length = 8 := by
  refine ⟨?_, ?_, rfl, rfl⟩
  · intro htype
    have hne : lookupProp props "type" ≠ .undefined := by rw [htype]; intro h; cases h
    constructor
    · intro hout
      have hacc : (ZType.enum ContributionType).accepts ctx.env (lookupProp props "type")
          = false := by
        rw [htype]
        simp [ZType.accepts, hout]
      exact ⟨callTool_rejected ctx addContributionTool (by simp [registrations]) props
          ⟨"type", .enum ContributionType, false⟩ (by simp [addContributionTool]) hne hacc,
        callTool_rejected ctx updateContributionTool (by simp [registrations]) props
          ⟨"type", .enum ContributionType, true⟩ (by simp [updateContributionTool]) hne hacc⟩
    · intro hin
      have hacc : (ZType.enum ContributionType).accepts ctx.env (lookupProp props "type")
          = true := by
        rw [htype]
        simp [ZType.accepts, hin]
      exact ⟨hacc,
        parseObject_not_rejected_at ctx.env addContributionTool.shape props
          ⟨"type", .enum ContributionType, false⟩ (by simp [addContributionTool])
          (by decide) hacc,
        parseObject_not_rejected_at ctx.env updateContributionTool.shape props
          ⟨"type", .enum ContributionType, true⟩ (by simp [updateContributionTool])
          (by decide) hacc⟩
  · intro hplat
    have hne : lookupProp props "platform" ≠ .undefined := by rw [hplat]; intro h; cases h
    constructor
    · intro hout
      have hacc : (ZType.enum PlatformType).accepts ctx.env (lookupProp props "platform")
          = false := by
        rw [hplat]
        simp [ZType.accepts, hout]
      exact callTool_rejected ctx addLinkTool (by simp [registrations]) props
          ⟨"platform", .enum PlatformType, false⟩ (by simp [addLinkTool]) hne hacc
    · intro hin
      have hacc : (ZType.enum PlatformType).accepts ctx.env (lookupProp props "platform")
          = true := by
        rw [hplat]
        simp [ZType.accepts, hin]
      exact ⟨hacc,
        parseObject_not_rejected_at ctx.env addLinkTool.shape props
          ⟨"platform", .enum PlatformType, false⟩ (by simp [addLinkTool])
          (by decide) hacc⟩

/-- The witness of C4: `PODCAST` is not a contribution type and `FACEBOOK` is not
a platform type, so both calls are refused; `SPEAKING` and `MASTODON` are
accepted. -/
theorem enum_fields_validated_witness :
    (Rejected (callTool ⟨refRuntime, "token", constRemote .null⟩ registrations
        "add_contribution"
        (.obj [("type", .str "PODCAST"), ("title", .str "t"), ("description", .str "d"),
               ("date", .str "2024-01-15")])) ∧
     Rejected (callTool ⟨refRuntime, "token", constRemote .null⟩ registrations
        "update_contribution"
        (.obj [("type", .str "PODCAST"), ("title", .str "t"), ("description", .str "d"),
               ("date", .str "2024-01-15")]))) ∧
    Rejected (callTool ⟨refRuntime, "token", constRemote .null⟩ registrations "add_link"
        (.obj [("link", .str "https://example.com"), ("platform", .str "FACEBOOK")])) ∧
    (ZType.enum ContributionType).accepts refRuntime (.str "SPEAKING") = true ∧
    (ZType.enum PlatformType).accepts refRuntime (.str "MASTODON") = true :=
  ⟨((enum_fields_validated ⟨refRuntime, "token", constRemote .null⟩
      [("type", .str "PODCAST"), ("title", .str "t"), ("description", .str "d"),
       ("date", .str "2024-01-15")] "PODCAST").1 rfl).1 (by decide),
   ((enum_fields_validated ⟨refRuntime, "token", constRemote .null⟩
      [("link", .str "https://example.com"), ("platform", .str "FACEBOOK")]
      "FACEBOOK").2.1 rfl).1 (by decide),
   (((enum_fields_validated ⟨refRuntime, "token", constRemote .null⟩
      [("type", .str "SPEAKING")] "SPEAKING").1 rfl).2 (by decide)).1,
   (((enum_fields_validated ⟨refRuntime, "token", constRemote .null⟩
      [("platform", .str "MASTODON")] "MASTODON").2.1 rfl).2 (by decide)).1⟩

/-! ## C5: the variables of `add_contribution` -/

/-- The one request of `add_contribution` when the date is valid. -/
theorem add_contribution_sent (ctx : Ctx) (args : List (String × JsVal)) (t : Int)
    (hdate : newDate ctx.env (lookupProp args "date") = some t) :
    (add_contribution ctx args).sent.map (fun r => r.vars) =
      [.obj [("type", lookupProp args "type"), ("title", lookupProp args "title"),
             ("description", lookupProp args "description"),
             ("url", jsOr (lookupProp args "url") .null), ("date", .str (isoString t))]] := by
  unfold add_contribution
  simp only [hdate, toISOString]
  rw [request_then_payload_sent ctx _ _ _ (fun a => jsonPayload_sent _ a _)]
  rfl

/-- With an invalid date `add_contribution` throws before it sends anything. -/
theorem add_contribution_invalid_date (ctx : Ctx) (args : List (String × JsVal))
    (hdate : newDate ctx.env (lookupProp args "date") = none) :
    (add_contribution ctx args).sent = [] ∧
    (add_contribution ctx args).result = .error .rangeError := by
  unfold add_contribution
  simp only [hdate, toISOString]
  exact ⟨rfl, rfl⟩

/-- The validated arguments of `add_contribution` agree with the input on the
five declared keys. -/
theorem add_contribution_args (env : Runtime) (props args : List (String × JsVal))
    (hvalid : parseObject env addContributionTool.shape (.obj props) = .ok args) :
    lookupProp args "type" = lookupProp props "type" ∧
    lookupProp args "title" = lookupProp props "title" ∧
    lookupProp args "description" = lookupProp props "description" ∧
    lookupProp args "url" = lookupProp props "url" ∧
    lookupProp args "date" = lookupProp props "date" := by
  have hs := parseObject_sound env addContributionTool.shape props args (by decide) hvalid
  exact ⟨(hs ⟨"type", .enum ContributionType, false⟩ (by simp [addContributionTool])).1,
    (hs ⟨"title", .stringMin 1, false⟩ (by simp [addContributionTool])).1,
    (hs ⟨"description", .stringMin 1, false⟩ (by simp [addContributionTool])).1,
    (hs ⟨"url", .stringUrl, true⟩ (by simp [addContributionTool])).1,
    (hs ⟨"date", .string, false⟩ (by simp [addContributionTool])).1⟩

/-- A call of `add_contribution` with a valid input runs the handler on arguments
that agree with the input. -/
theorem callTool_add_contribution (ctx : Ctx) (props args : List (String × JsVal))
    (hvalid : parseObject ctx.env addContributionTool.shape (.obj props) = .ok args) :
    callTool ctx registrations "add_contribution" (.obj props) = add_contribution ctx args := by
  have hcall := callTool_of_mem ctx addContributionTool (by simp [registrations]) (.obj props)
  rw [hvalid] at hcall
  exact hcall

/-- C5: for two inputs of `add_contribution` that pass the schema and whose
dates denote the same instant t (a plain date and a full timestamp, say), each
call sends one request whose variables carry `type`, `title` and `description`
of its input unchanged, and both carry the same `date`: the ISO string of t in
UTC. -/
theorem add_contribution_variables (ctx : Ctx) (props₁ args₁ props₂ args₂ : List (String × JsVal))
    (t : Int)
    (hvalid₁ : parseObject ctx.env addContributionTool.shape (.obj props₁) = .ok args₁)
    (hvalid₂ : parseObject ctx.env addContributionTool.shape (.obj props₂) = .ok args₂)
    (hdate₁ : newDate ctx.env (lookupProp props₁ "date") = some t)
    (hdate₂ : newDate ctx.env (lookupProp props₂ "date") = some t) :
    (callTool ctx registrations "add_contribution" (.obj props₁)).sent.map (fun r => r.vars) =
      [.obj [("type", lookupProp props₁ "type"), ("title", lookupProp props₁ "title"),
             ("description", lookupProp props₁ "description"),
             ("url", jsOr (lookupProp props₁ "url") .null), ("date", .str (isoString t))]] ∧
    (callTool ctx registrations "add_contribution" (.obj props₂)).sent.map (fun r => r.vars) =
      [.obj [("type", lookupProp props₂ "type"), ("title", lookupProp props₂ "title"),
             ("description", lookupProp props₂ "description"),
             ("url", jsOr (lookupProp props₂ "url") .null), ("date", .str (isoString t))]] := by
  obtain ⟨a1, a2, a3, a4, a5⟩ := add_contribution_args ctx.env props₁ args₁ hvalid₁
  obtain ⟨b1, b2, b3, b4, b5⟩ := add_contribution_args ctx.env props₂ args₂ hvalid₂
  rw [callTool_add_contribution ctx props₁ args₁ hvalid₁,
    callTool_add_contribution ctx props₂ args₂ hvalid₂,
    add_contribution_sent ctx args₁ t (by rw [a5]; exact hdate₁),
    add_contribution_sent ctx args₂ t (by rw [b5]; exact hdate₂),
    a1, a2, a3, a4, b1, b2, b3, b4]
  exact ⟨rfl, rfl⟩

/-- The witness of C5: the plain date 2024-01-15 and the timestamp of the same
midnight with an offset of two hours both give `2024-01-15T00:00:00.000Z`. -/
theorem add_contribution_variables_witness :
    (callTool ⟨refRuntime, "token", constRemote .null⟩ registrations "add_contribution"
        (.obj [("type", .str "BLOGPOST"), ("title", .str "Title"),
               ("description", .str "Text"), ("date", .str "2024-01-15")])).sent.map
        (fun r => r.vars) =
      [.obj [("type", .str "BLOGPOST"), ("title", .str "Title"), ("description", .str "Text"),
             ("url", .null), ("date", .str "2024-01-15T00:00:00.000Z")]] ∧
    (callTool ⟨refRuntime, "token", constRemote .null⟩ registrations "add_contribution"
        (.obj [("type", .str "SPEAKING"), ("title", .str "Talk"),
               ("description", .str "Slides"), ("url", .str "https://example.com/talk"),
               ("date", .str "2024-01-15T02:00:00.000+02:00")])).sent.map
        (fun r => r.vars) =
      [.obj [("type", .str "SPEAKING"), ("title", .str "Talk"), ("description", .str "Slides"),
             ("url", .str "https://example.com/talk"),
             ("date", .str "2024-01-15T00:00:00.000Z")]] :=
  add_contribution_variables ⟨refRuntime, "token", constRemote .null⟩
    [("type", .str "BLOGPOST"), ("title", .str "Title"), ("description", .str "Text"),
     ("date", .str "2024-01-15")]
    [("type", .str "BLOGPOST"), ("title", .str "Title"), ("description", .str "Text"),
     ("date", .str "2024-01-15")]
    [("type", .str "SPEAKING"), ("title", .str "Talk"), ("description", .str "Slides"),
     ("url", .str "https://example.com/talk"), ("date", .str "2024-01-15T02:00:00.000+02:00")]
    [("type", .str "SPEAKING"), ("title", .str "Talk"), ("description", .str "Slides"),
     ("url", .str "https://example.com/talk"), ("date", .str "2024-01-15T02:00:00.000+02:00")]
    1705276800000 rfl rfl (by decide) (by decide)

/-! ## C3 and C6: optional fields and the date of `update_contribution` -/

/-- On a value that is absent or truthy, `v || null` is `v ?? null`: `null` for an
absent value, the value itself otherwise. -/
theorem jsOr_null_eq_nullish (v : JsVal) (h : v = .undefined ∨ v.truthy = true) :
    jsOr v .null = jsNullish v .null := by
  rcases h with rfl | h
  · rfl
  · rw [jsOr_of_truthy v .null h]
    cases v <;> first | rfl | (simp [JsVal.truthy] at h)

/-- The one request of `update_contribution` when the date expression has a value. -/
theorem update_contribution_sent (ctx : Ctx) (args : List (String × JsVal)) (dateVar : JsVal)
    (hdate : dateOrNull ctx.env (lookupProp args "date") = .ok dateVar) :
    (update_contribution ctx args).sent.map (fun r => r.vars) =
      [.obj [("id", lookupProp args "id"), ("type", jsOr (lookupProp args "type") .null),
             ("title", jsOr (lookupProp args "title") .null),
             ("description", jsOr (lookupProp args "description") .null),
             ("url", jsOr (lookupProp args "url") .null), ("date", dateVar)]] := by
  unfold update_contribution
  simp only [hdate]
  rw [request_then_payload_sent ctx _ _ _ (fun a => jsonPayload_sent _ a _)]
  rfl

/-- With a non-empty date that is invalid `update_contribution` throws before it
sends anything. -/
theorem update_contribution_invalid_date (ctx : Ctx) (args : List (String × JsVal))
    (htruthy : (lookupProp args "date").truthy = true)
    (hdate : newDate ctx.env (lookupProp args "date") = none) :
    (update_contribution ctx args).sent = [] ∧
    (update_contribution ctx args).result = .error .rangeError := by
  unfold update_contribution
  simp only [dateOrNull, htruthy, hdate, toISOString, if_true]
  exact ⟨rfl, rfl⟩

/-- A call of `update_contribution` with a valid input runs the handler on
arguments that agree with the input. -/
theorem callTool_update_contribution (ctx : Ctx) (props args : List (String × JsVal))
    (hvalid : parseObject ctx.env updateContributionTool.shape (.obj props) = .ok args) :
    callTool ctx registrations "update_contribution" (.obj props)
      = update_contribution ctx args := by
  have hcall := callTool_of_mem ctx updateContributionTool (by simp [registrations]) (.obj props)
  rw [hvalid] at hcall
  exact hcall

/-- The variables of `update_contribution` for an input that passes the schema
and whose date is absent, or non-empty and valid: `id` is forwarded, each of
`type`, `title`, `description` and `url` is `null` when absent and unchanged
when present, and `date` is `null` when absent and the ISO string of its
instant when present. -/
theorem update_contribution_variables (ctx : Ctx) (props args : List (String × JsVal))
    (dateVar : JsVal)
    (hvalid : parseObject ctx.env updateContributionTool.shape (.obj props) = .ok args)
    (hdate : (lookupProp props "date" = .undefined ∧ dateVar = .null) ∨
      (∃ d t, lookupProp props "date" = .str d ∧ d ≠ "" ∧
        newDate ctx.env (.str d) = some t ∧ dateVar = .str (isoString t))) :
    (callTool ctx registrations "update_contribution" (.obj props)).sent.map (fun r => r.vars) =
      [.obj [("id", lookupProp props "id"),
             ("type", jsNullish (lookupProp props "type") .null),
             ("title", jsNullish (lookupProp props "title") .null),
             ("description", jsNullish (lookupProp props "description") .null),
             ("url", jsNullish (lookupProp props "url") .null), ("date", dateVar)]] := by
  have hs := parseObject_sound ctx.env updateContributionTool.shape props args (by decide) hvalid
  obtain ⟨a1, _⟩ := hs ⟨"id", .stringMin 1, false⟩ (by simp [updateContributionTool])
  obtain ⟨a2, c2⟩ := hs ⟨"type", .enum ContributionType, true⟩ (by simp [updateContributionTool])
  obtain ⟨a3, c3⟩ := hs ⟨"title", .stringMin 1, true⟩ (by simp [updateContributionTool])
  obtain ⟨a4, c4⟩ := hs ⟨"description", .stringMin 1, true⟩ (by simp [updateContributionTool])
  obtain ⟨a5, c5⟩ := hs ⟨"url", .stringUrl, true⟩ (by simp [updateContributionTool])
  obtain ⟨a6, _⟩ := hs ⟨"date", .string, true⟩ (by simp [updateContributionTool])
  simp only at a1 a2 a3 a4 a5 a6 c2 c3 c4 c5
  have hd : dateOrNull ctx.env (lookupProp args "date") = .ok dateVar := by
    rw [a6]
    rcases hdate with ⟨h0, rfl⟩ | ⟨d, t, h0, hne, ht, rfl⟩
    · rw [h0]; rfl
    · rw [h0]
      simp [dateOrNull, JsVal.truthy, hne, ht, toISOString]
  rw [callTool_update_contribution ctx props args hvalid,
    update_contribution_sent ctx args dateVar hd, a1, a2, a3, a4, a5,
    jsOr_null_eq_nullish _ (c2.imp (fun h => h.1) (contributionType_accepted_truthy ctx.env _)),
    jsOr_null_eq_nullish _ (c3.imp (fun h => h.1) (min1_accepted_truthy ctx.env _)),
    jsOr_null_eq_nullish _ (c4.imp (fun h => h.1) (min1_accepted_truthy ctx.env _)),
    jsOr_null_eq_nullish _ (c5.imp (fun h => h.1) (url_accepted_truthy ctx.env _))]

/-- The `url` variable of `add_contribution` for an input that passes the schema:
`null` when absent, the value itself when present. -/
theorem add_contribution_url_variable (env : Runtime) (props args : List (String × JsVal))
    (hvalid : parseObject env addContributionTool.shape (.obj props) = .ok args) :
    jsOr (lookupProp props "url") .null = jsNullish (lookupProp props "url") .null := by
  have hs := parseObject_sound env addContributionTool.shape props args (by decide) hvalid
  obtain ⟨_, c⟩ := hs ⟨"url", .stringUrl, true⟩ (by simp [addContributionTool])
  exact jsOr_null_eq_nullish _ (c.imp (fun h => h.1) (url_accepted_truthy env _))

/-- The variables of `search_stars` for an input that passes the schema:
`featured` is `null` when absent and the supplied boolean otherwise, `false`
included. -/
theorem search_stars_variables (ctx : Ctx) (props args : List (String × JsVal))
    (hvalid : parseObject ctx.env searchStarsTool.shape (.obj props) = .ok args) :
    (callTool ctx registrations "search_stars" (.obj props)).sent.map (fun r => r.vars) =
      [.obj [("featured", jsNullish (lookupProp props "featured") .null)]] ∧
    jsNullish (.bool false) .null = .bool false := by
  have hcall := callTool_of_mem ctx searchStarsTool (by simp [registrations]) (.obj props)
  rw [hvalid] at hcall
  have hs := parseObject_sound ctx.env searchStarsTool.shape props args (by decide) hvalid
  obtain ⟨a1, _⟩ := hs ⟨"featured", .boolean, true⟩ (by simp [searchStarsTool])
  simp only at a1
  refine ⟨?_, rfl⟩
  show (callTool ctx registrations searchStarsTool.name (.obj props)).sent.map _ = _
  rw [hcall]
  show (search_stars ctx args).sent.map _ = _
  unfold search_stars
  rw [request_then_payload_sent ctx _ _ _ (fun a => jsonPayload_sent _ a _), a1]
  rfl

/-- C6, at the input `id: c1, date:` the empty string: the input passes the
schema with `date` present, yet the variables of the one request carry `null`
for `date`, as they do when `date` is absent. -/
theorem update_contribution_empty_date_becomes_null (ctx : Ctx) :
    parseObject ctx.env updateContributionTool.shape
        (.obj [("id", .str "c1"), ("date", .str "")])
      = .ok [("id", .str "c1"), ("date", .str "")] ∧
    (callTool ctx registrations "update_contribution"
        (.obj [("id", .str "c1"), ("date", .str "")])).sent.map (fun r => r.vars) =
      [.obj [("id", .str "c1"), ("type", .null), ("title", .null), ("description", .null),
             ("url", .null), ("date", .null)]] := by
  have hvalid : parseObject ctx.env updateContributionTool.shape
      (.obj [("id", .str "c1"), ("date", .str "")])
        = .ok [("id", .str "c1"), ("date", .str "")] := rfl
  refine ⟨hvalid, ?_⟩
  rw [callTool_update_contribution ctx _ _ hvalid,
    update_contribution_sent ctx [("id", .str "c1"), ("date", .str "")] .null rfl]
  rfl

/-- C3, at the same input in the concrete engine: the empty string is not a
date, the same date makes `add_contribution` throw without a request, but
`update_contribution` sends its request and the call succeeds. -/
theorem update_contribution_empty_date_is_sent :
    newDate refRuntime (.str "") = none ∧
    (callTool ⟨refRuntime, "token", constRemote .null⟩ registrations "add_contribution"
        (.obj [("type", .str "OTHER"), ("title", .str "t"), ("description", .str "d"),
               ("date", .str "")])).sent = [] ∧
    (callTool ⟨refRuntime, "token", constRemote .null⟩ registrations "add_contribution"
        (.obj [("type", .str "OTHER"), ("title", .str "t"), ("description", .str "d"),
               ("date", .str "")])).result = .error .rangeError ∧
    (callTool
        ⟨refRuntime, "token",
          constRemote (.obj [("data", .obj [("updateContribution", .obj [("id", .str "c1")])])])⟩
        registrations "update_contribution"
        (.obj [("id", .str "c1"), ("date", .str "")])).sent.length = 1 ∧
    (callTool
        ⟨refRuntime, "token",
          constRemote (.obj [("data", .obj [("updateContribution", .obj [("id", .str "c1")])])])⟩
        registrations "update_contribution"
        (.obj [("id", .str "c1"), ("date", .str "")])).result =
      .ok { content := [{ type := "text", text := some "\x7b\n  \"id\": \"c1\"\n\x7d" }] } := by
  refine ⟨rfl, rfl, rfl, rfl, rfl⟩

/-! ## Facts about dates: the ISO string is canonical -/

theorem digitVal_digitChar (n : Nat) : digitVal (digitChar n) = some (n % 10) := by
  unfold digitChar
  have h : n % 10 < 10 := Nat.mod_lt _ (by decide)
  generalize n % 10 = k at h
  interval_cases k <;> rfl

theorem digitChar_not_sign (n : Nat) : digitChar n ≠ '+' ∧ digitChar n ≠ '-' := by
  unfold digitChar
  have h : n % 10 < 10 := Nat.mod_lt _ (by decide)
  generalize n % 10 = k at h
  interval_cases k <;> decide

theorem takeDigits_padDigits (w : Nat) : ∀ (v : Nat) (rest : List Char),
    takeDigits w (padDigits w v ++ rest) = some (v % 10 ^ w, rest) := by
  induction w with
  | zero =>
    intro v rest
    simp [takeDigits, padDigits, Nat.mod_one]
  | succ w ih =>
    intro v rest
    have h : padDigits (w + 1) v ++ rest = padDigits w (v / 10) ++ (digitChar v :: rest) := by
      simp [padDigits]
    rw [h]
    simp only [takeDigits, ih, digitVal_digitChar, Option.map_some']
    have harith : 10 * (v / 10 % 10 ^ w) + v % 10 = v % 10 ^ (w + 1) := by
      rw [pow_succ, Nat.mul_comm (10 ^ w) 10, Nat.mod_mul]
      omega
    rw [harith]

theorem takeDigits_padDigits_of_lt (w v : Nat) (rest : List Char) (hv : v < 10 ^ w) :
    takeDigits w (padDigits w v ++ rest) = some (v, rest) := by
  rw [takeDigits_padDigits, Nat.mod_eq_of_lt hv]


/-- The arithmetic behind `civilFromDays`, with every intermediate value named. -/
theorem civil_arith (day era doe n100 r1 n4 r2 n1 doy mp d m y yr : Int)
    (hera : era = (day + 719468) / 146097) (hdoe : doe = (day + 719468) % 146097)
    (hn100 : n100 = min (doe / 36524) 3) (hr1 : r1 = doe - 36524 * n100)
    (hn4 : n4 = r1 / 1461) (hr2 : r2 = r1 % 1461) (hn1 : n1 = min (r2 / 365) 3)
    (hdoy : doy = r2 - 365 * n1) (hmp : mp = (5 * doy + 2) / 153)
    (hd : d = doy - (153 * mp + 2) / 5 + 1) (hm : m = if mp < 10 then mp + 3 else mp - 9)
    (hy : y = 100 * n100 + 4 * n4 + n1 + era * 400) (hyr : yr = if m ≤ 2 then y + 1 else y) :
    (1 ≤ m ∧ m ≤ 12 ∧ 1 ≤ d ∧ d ≤ 31) ∧
    (m = 2 → d ≤ 28 ∨ (d = 29 ∧ yr % 4 = 0 ∧ (yr % 100 ≠ 0 ∨ yr % 400 = 0))) ∧
    (m = 4 ∨ m = 6 ∨ m = 9 ∨ m = 11 → d ≤ 30) ∧
    (400 * era ≤ yr ∧ yr ≤ 400 * era + 400) ∧
    (∀ y1 mp1 : Int, (y1 = if m ≤ 2 then yr - 1 else yr) →
      (mp1 = if 2 < m then m - 3 else m + 9) →
      y1 / 400 * 146097 + (y1 % 400 * 365 + y1 % 400 / 4 - y1 % 400 / 100 +
        ((153 * mp1 + 2) / 5 + d - 1)) - 719468 = day) := by
  have b_doe : 0 ≤ doe ∧ doe ≤ 146096 := by omega
  have b_n100 : 0 ≤ n100 ∧ n100 ≤ 3 := by omega
  have b_r1 : 0 ≤ r1 ∧ r1 ≤ 36524 ∧ (r1 = 36524 → n100 = 3) := by omega
  have b_n4 : 0 ≤ n4 ∧ n4 ≤ 24 := by omega
  have b_r2 : 0 ≤ r2 ∧ r2 ≤ 1460 ∧ r1 = 1461 * n4 + r2 := by omega
  have b_n1 : 0 ≤ n1 ∧ n1 ≤ 3 := by omega
  have b_doy : 0 ≤ doy ∧ doy ≤ 365 ∧ (doy = 365 → n1 = 3 ∧ r2 = 1460) := by omega
  have b_mp : 0 ≤ mp ∧ mp ≤ 11 := by omega
  have b_m : 1 ≤ m ∧ m ≤ 12 ∧ (m ≤ 2 ↔ 10 ≤ mp) ∧ (mp = if 2 < m then m - 3 else m + 9) := by
    split_ifs at hm ⊢ <;> omega
  have b_d : 1 ≤ d ∧ d ≤ 31 := by omega
  refine ⟨⟨b_m.1, b_m.2.1, b_d.1, b_d.2⟩, ?_, ?_, ?_, ?_⟩
  · intro hm2
    have hmp11 : mp = 11 := by split_ifs at hm <;> omega
    have hyr1 : yr = y + 1 := by rw [hyr, if_pos (by omega)]
    by_cases h365 : doy = 365
    · right
      obtain ⟨h3, h1460⟩ := b_doy.2.2 h365
      have hn4' : n4 = 24 → n100 = 3 := by omega
      refine ⟨by omega, by omega, ?_⟩
      by_cases h24 : n4 = 24
      · right
        have := hn4' h24
        omega
      · left
        omega
    · left
      omega
  · intro hm30
    split_ifs at hm <;> omega
  · split_ifs at hyr <;> omega
  · intro y1 mp1 hy1 hmp1
    have hy1' : y1 = y := by
      rw [hy1, hyr]
      split_ifs <;> omega
    have hmp1' : mp1 = mp := by rw [hmp1]; exact b_m.2.2.2.symm
    have hdiv : y1 / 400 = era := by omega
    have hmod : y1 % 400 = 100 * n100 + 4 * n4 + n1 := by omega
    have h4 : (100 * n100 + 4 * n4 + n1) / 4 = 25 * n100 + n4 := by omega
    have h100 : (100 * n100 + 4 * n4 + n1) / 100 = n100 := by omega
    rw [hdiv, hmod, h4, h100, hmp1']
    omega


/-- The date `civilFromDays` computes is a date of the calendar, and
`daysFromCivil` maps it back to the day number. -/
theorem civilFromDays_valid (day : Int) :
    1 ≤ (civilFromDays day).2.1.toNat ∧ (civilFromDays day).2.1.toNat ≤ 12 ∧
    1 ≤ (civilFromDays day).2.2.toNat ∧
    (civilFromDays day).2.2.toNat ≤
      daysInMonth (civilFromDays day).1 (civilFromDays day).2.1.toNat ∧
    daysFromCivil (civilFromDays day).1 (civilFromDays day).2.1.toNat
      (civilFromDays day).2.2.toNat = day ∧
    400 * ((day + 719468) / 146097) ≤ (civilFromDays day).1 ∧
    (civilFromDays day).1 ≤ 400 * ((day + 719468) / 146097) + 400 := by
  obtain ⟨⟨hm1, hm12, hd1, hd31⟩, hfeb, h30, hyear, hback⟩ :=
    civil_arith day _ _ _ _ _ _ _ _ _ (civilFromDays day).2.2 (civilFromDays day).2.1 _
      (civilFromDays day).1 rfl rfl rfl rfl rfl rfl rfl rfl rfl rfl rfl rfl rfl
  generalize (civilFromDays day).1 = yr at *
  generalize hmm : (civilFromDays day).2.1 = m at *
  generalize hdd : (civilFromDays day).2.2 = d at *
  obtain ⟨mN, rfl⟩ : ∃ mN : Nat, m = (mN : Int) := ⟨m.toNat, (Int.toNat_of_nonneg (by omega)).symm⟩
  obtain ⟨dN, rfl⟩ : ∃ dN : Nat, d = (dN : Int) := ⟨d.toNat, (Int.toNat_of_nonneg (by omega)).symm⟩
  simp only [Int.toNat_ofNat]
  refine ⟨by omega, by omega, by omega, ?_, ?_, hyear.1, hyear.2⟩
  · unfold daysInMonth isLeapYear
    by_cases h2 : mN = 2
    · rcases hfeb (by omega) with h | ⟨h29, h4, h100⟩
      · simp only [h2, if_true]
        split_ifs <;> omega
      · have hleap : (decide (yr % 4 = 0) && (decide (yr % 100 ≠ 0) || decide (yr % 400 = 0)))
            = true := by
          simp only [Bool.and_eq_true, Bool.or_eq_true, decide_eq_true_eq]
          exact ⟨h4, h100⟩
        simp only [h2, if_true, hleap]
        omega
    · simp only [h2, if_false]
      split_ifs with h
      · have := h30 (by omega)
        omega
      · omega
  · unfold daysFromCivil
    have := hback (if mN ≤ 2 then yr - 1 else yr) (if 2 < mN then (mN : Int) - 3 else (mN : Int) + 9)
      (by split_ifs <;> first | rfl | omega) (by split_ifs <;> first | rfl | omega)
    simpa using this


theorem parseYear_isoYear (y : Int) (hy : -999999 ≤ y ∧ y ≤ 999999) (rest : List Char) :
    parseYear (isoYear y ++ rest) = some (y, rest) := by
  unfold isoYear
  by_cases h1 : 0 ≤ y ∧ y ≤ 9999
  · rw [if_pos h1]
    have hlt : y.toNat < 10 ^ 4 := by omega
    have hpars := takeDigits_padDigits_of_lt 4 y.toNat rest hlt
    have hshape : padDigits 4 y.toNat ++ rest =
        digitChar (y.toNat / 10 / 10 / 10) ::
          ([digitChar (y.toNat / 10 / 10), digitChar (y.toNat / 10), digitChar y.toNat] ++ rest) := by
      simp [padDigits]
    rw [hshape] at hpars ⊢
    obtain ⟨hp, hm⟩ := digitChar_not_sign (y.toNat / 10 / 10 / 10)
    simp only [parseYear, if_neg hp, if_neg hm, hpars, Option.map_some']
    congr 2
    omega
  · rw [if_neg h1]
    by_cases h2 : 0 ≤ y
    · rw [if_pos h2]
      have hlt : y.toNat < 10 ^ 6 := by omega
      simp only [List.cons_append, parseYear, if_true,
        takeDigits_padDigits_of_lt 6 y.toNat rest hlt, Option.map_some']
      congr 2
      omega
    · rw [if_neg h2]
      have hlt : y.natAbs < 10 ^ 6 := by omega
      have hne : y.natAbs ≠ 0 := by omega
      have hsign : ('-' : Char) ≠ '+' := by decide
      simp only [List.cons_append, parseYear, if_neg hsign, if_true,
        takeDigits_padDigits_of_lt 6 y.natAbs rest hlt, Option.some_bind, if_neg hne]
      congr 2
      omega

theorem parseField_padDigits (sep : Char) (dflt v : Nat) (hv : v < 100) (rest : List Char) :
    parseField sep dflt (sep :: (padDigits 2 v ++ rest)) = some (v, rest) := by
  simp only [parseField, if_true]
  exact takeDigits_padDigits_of_lt 2 v rest (by omega)

theorem parseTime_iso (h mi sec ms : Nat) (hh : h ≤ 23) (hmi : mi ≤ 59) (hsec : sec ≤ 59)
    (hms : ms ≤ 999) :
    parseTime (padDigits 2 h ++ (':' :: (padDigits 2 mi ++ (':' :: (padDigits 2 sec ++
      ('.' :: (padDigits 3 ms ++ ['Z']))))))) =
      some (((((h * 60 + mi) * 60 + sec) * 1000 + ms : Nat) : Int)) := by
  simp only [parseTime, parseSeconds, parseOffset,
    takeDigits_padDigits_of_lt 2 h _ (by omega : h < 10 ^ 2),
    takeDigits_padDigits_of_lt 2 mi _ (by omega : mi < 10 ^ 2),
    takeDigits_padDigits_of_lt 2 sec _ (by omega : sec < 10 ^ 2),
    takeDigits_padDigits_of_lt 3 ms _ (by omega : ms < 10 ^ 3),
    Option.some_bind, Option.map_some']
  simp [hh, hmi, hsec]

/-- The time value is recovered from its ISO string: `Date.parse(d.toISOString())`
is the time value of `d`, for every valid time value. -/
theorem isoDateParse_isoString (t : Int) (ht : t.natAbs ≤ maxTimeValue.natAbs) :
    isoDateParse (isoString t) = some t := by
  obtain ⟨hm1, hm12, hd1, hdm, hback, hylo, hyhi⟩ := civilFromDays_valid (t / msPerDay)
  have hmsd : 0 ≤ t % msPerDay ∧ t % msPerDay < 86400000 := by
    unfold msPerDay; omega
  have hyear : -999999 ≤ (civilFromDays (t / msPerDay)).1 ∧
      (civilFromDays (t / msPerDay)).1 ≤ 999999 := by
    have hday : -100000000 ≤ t / msPerDay ∧ t / msPerDay ≤ 100000000 := by
      unfold maxTimeValue at ht
      unfold msPerDay
      omega
    generalize t / msPerDay = day at hylo hyhi hday ⊢
    omega
  have hd31 : (civilFromDays (t / msPerDay)).2.2.toNat ≤ 31 := by
    refine le_trans hdm ?_
    unfold daysInMonth
    split_ifs <;> omega
  obtain ⟨msd, hmsd'⟩ : ∃ msd : Nat, t % msPerDay = (msd : Int) :=
    ⟨(t % msPerDay).toNat, (Int.toNat_of_nonneg hmsd.1).symm⟩
  have hshape : (isoString t).data =
      isoYear (civilFromDays (t / msPerDay)).1 ++
        ('-' :: (padDigits 2 (civilFromDays (t / msPerDay)).2.1.toNat ++
        ('-' :: (padDigits 2 (civilFromDays (t / msPerDay)).2.2.toNat ++
        ('T' :: (padDigits 2 (msd / 3600000) ++
        (':' :: (padDigits 2 (msd / 60000 % 60) ++
        (':' :: (padDigits 2 (msd / 1000 % 60) ++
        ('.' :: (padDigits 3 (msd % 1000) ++ ['Z'])))))))))))) := by
    simp only [isoString, hmsd', Int.toNat_ofNat, List.append_assoc, List.cons_append]
  unfold isoDateParse
  rw [hshape, parseYear_isoYear _ hyear]
  simp only [Option.some_bind]
  rw [parseField_padDigits '-' 1 _ (by omega)]
  simp only [Option.some_bind]
  rw [parseField_padDigits '-' 1 _ (by omega)]
  simp only [Option.some_bind]
  rw [if_pos ⟨hm1, hm12, hd1, hdm⟩]
  show Option.map _ (parseTime _) = _
  rw [parseTime_iso _ _ _ _ (by omega) (by omega) (by omega) (by omega), hback]
  simp only [Option.map_some', Option.some.injEq]
  have hsum : ((((msd / 3600000 * 60 + msd / 60000 % 60) * 60 + msd / 1000 % 60) * 1000
      + msd % 1000 : Nat) : Int) = t % msPerDay := by
    rw [hmsd']
    have : msd < 86400000 := by omega
    omega
  rw [hsum]
  exact Int.ediv_add_emod' t msPerDay


/-- The arithmetic behind `daysFromCivil` followed by `civilFromDays`, with every
intermediate value named: the year within the era, the day within the year and
the era are recovered. -/
theorem days_arith (y1 era yoe mp doy doe leap : Int)
    (hera : era = y1 / 400) (hyoe : yoe = y1 % 400)
    (hmp : 0 ≤ mp ∧ mp ≤ 11)
    (hleap : leap = 0 ∨ (leap = 1 ∧ (yoe + 1) % 4 = 0 ∧ ((yoe + 1) % 100 ≠ 0 ∨ yoe = 399)))
    (hlen : doy ≤ 364 + leap)
    (hmonth : (5 * doy + 2) / 153 = mp)
    (hdoe : doe = yoe * 365 + yoe / 4 - yoe / 100 + doy) :
    (era * 146097 + doe - 719468 + 719468) / 146097 = era ∧
    (era * 146097 + doe - 719468 + 719468) % 146097 = doe ∧
    100 * min (doe / 36524) 3 +
      4 * ((doe - 36524 * min (doe / 36524) 3) / 1461) +
      min ((doe - 36524 * min (doe / 36524) 3) % 1461 / 365) 3 = yoe ∧
    (doe - 36524 * min (doe / 36524) 3) % 1461 -
      365 * min ((doe - 36524 * min (doe / 36524) 3) % 1461 / 365) 3 = doy := by
  have b_yoe : 0 ≤ yoe ∧ yoe ≤ 399 := by omega
  obtain ⟨a, ha⟩ : ∃ a, a = yoe / 100 := ⟨_, rfl⟩
  obtain ⟨b, hb⟩ : ∃ b, b = yoe % 100 / 4 := ⟨_, rfl⟩
  obtain ⟨c, hc⟩ : ∃ c, c = yoe % 4 := ⟨_, rfl⟩
  have b_a : 0 ≤ a ∧ a ≤ 3 := by omega
  have b_b : 0 ≤ b ∧ b ≤ 24 := by omega
  have b_c : 0 ≤ c ∧ c ≤ 3 := by omega
  have hy : yoe = 100 * a + 4 * b + c := by omega
  have hq : yoe / 4 = 25 * a + b := by omega
  have b_doy : 0 ≤ doy := by omega
  have hdoe' : doe = 36524 * a + 1461 * b + 365 * c + doy := by omega
  have hl365 : doy = 365 → c = 3 ∧ (b ≤ 23 ∨ a = 3) := by
    intro h365
    rcases hleap with h0 | ⟨_, h4, h100⟩
    · omega
    · omega
  have b_in : 1461 * b + 365 * c + doy ≤ 36523 ∨ (a = 3 ∧ 1461 * b + 365 * c + doy = 36524) := by
    by_cases h365 : doy = 365
    · obtain ⟨h3, hba⟩ := hl365 h365
      omega
    · omega
  have b_doe : 0 ≤ doe ∧ doe ≤ 146096 := by omega
  have hn100 : min (doe / 36524) 3 = a := by
    have : doe / 36524 = a ∨ (a = 3 ∧ doe / 36524 = 4) := by omega
    omega
  have hr1 : doe - 36524 * a = 1461 * b + 365 * c + doy := by omega
  have b_cd : 365 * c + doy ≤ 1460 := by
    by_cases h365 : doy = 365
    · omega
    · omega
  have hn4 : (1461 * b + 365 * c + doy) / 1461 = b := by omega
  have hr2 : (1461 * b + 365 * c + doy) % 1461 = 365 * c + doy := by omega
  have hn1 : min ((365 * c + doy) / 365) 3 = c := by
    have : (365 * c + doy) / 365 = c ∨ (c = 3 ∧ (365 * c + doy) / 365 = 4) := by omega
    omega
  refine ⟨by omega, by omega, ?_, ?_⟩
  · rw [hn100, hr1, hn4, hr2, hn1]
    omega
  · rw [hn100, hr1, hr2, hn1]
    omega


/-- On a date of the calendar, `civilFromDays` undoes `daysFromCivil`. -/
theorem civilFromDays_daysFromCivil (y : Int) (m d : Nat) (hm : 1 ≤ m ∧ m ≤ 12)
    (hd : 1 ≤ d ∧ d ≤ daysInMonth y m) :
    civilFromDays (daysFromCivil y m d) = (y, (m : Int), (d : Int)) := by
  obtain ⟨y1, hy1⟩ : ∃ y1 : Int, y1 = if m ≤ 2 then y - 1 else y := ⟨_, rfl⟩
  obtain ⟨mp, hmp⟩ : ∃ mp : Int, mp = if 2 < m then (m : Int) - 3 else (m : Int) + 9 := ⟨_, rfl⟩
  obtain ⟨doy, hdoy⟩ : ∃ doy : Int, doy = (153 * mp + 2) / 5 + (d : Int) - 1 := ⟨_, rfl⟩
  obtain ⟨doe, hdoe⟩ : ∃ doe : Int,
      doe = y1 % 400 * 365 + y1 % 400 / 4 - y1 % 400 / 100 + doy := ⟨_, rfl⟩
  have hD : daysFromCivil y m d = y1 / 400 * 146097 + doe - 719468 := by
    simp only [daysFromCivil, ← hy1, ← hmp, ← hdoy, ← hdoe]
  have b_mp : 0 ≤ mp ∧ mp ≤ 11 ∧ (m ≤ 2 ↔ 10 ≤ mp) ∧
      (m : Int) = (if mp < 10 then mp + 3 else mp - 9) := by
    split_ifs at hmp ⊢ <;> omega
  have hdim : d ≤ 31 ∧ ((m = 4 ∨ m = 6 ∨ m = 9 ∨ m = 11) → d ≤ 30) ∧
      (m = 2 → d ≤ 28 ∨ (d = 29 ∧ isLeapYear y = true)) := by
    have h := hd.2
    unfold daysInMonth at h
    refine ⟨?_, ?_, ?_⟩
    · split_ifs at h <;> omega
    · intro h30
      rw [if_neg (by omega), if_pos h30] at h
      exact h
    · intro h2
      rw [if_pos h2] at h
      by_cases hl : isLeapYear y = true
      · rw [if_pos hl] at h
        rcases Nat.lt_or_ge d 29 with h1 | h1
        · left; omega
        · right; exact ⟨by omega, hl⟩
      · rw [if_neg hl] at h
        left; exact h
  have hmonth : (5 * doy + 2) / 153 = mp := by
    have hm1 := hm
    have hd1 := hd.1
    obtain ⟨h31, h30, h28⟩ := hdim
    have h2 : m = 2 → d ≤ 29 := by
      intro h
      rcases h28 h with h | h <;> omega
    have ha4 : m = 4 → d ≤ 30 := fun h => h30 (Or.inl h)
    have ha6 : m = 6 → d ≤ 30 := fun h => h30 (Or.inr (Or.inl h))
    have ha9 : m = 9 → d ≤ 30 := fun h => h30 (Or.inr (Or.inr (Or.inl h)))
    have ha11 : m = 11 → d ≤ 30 := fun h => h30 (Or.inr (Or.inr (Or.inr h)))
    have hcases : m = 1 ∨ m = 2 ∨ m = 3 ∨ m = 4 ∨ m = 5 ∨ m = 6 ∨ m = 7 ∨ m = 8 ∨ m = 9 ∨
        m = 10 ∨ m = 11 ∨ m = 12 := by omega
    rcases hcases with h | h | h | h | h | h | h | h | h | h | h | h <;>
      (subst h; simp only [Nat.reduceLT, Nat.lt_irrefl, if_true, if_false] at hmp; omega)
  obtain ⟨leap, hleap, hlen⟩ : ∃ leap : Int,
      (leap = 0 ∨ (leap = 1 ∧ (y1 % 400 + 1) % 4 = 0 ∧
        ((y1 % 400 + 1) % 100 ≠ 0 ∨ y1 % 400 = 399))) ∧ doy ≤ 364 + leap := by
    by_cases hfeb29 : m = 2 ∧ d = 29
    · refine ⟨1, Or.inr ⟨rfl, ?_⟩, ?_⟩
      · rcases hdim.2.2 hfeb29.1 with h | ⟨_, hl⟩
        · omega
        · have hy2 : y1 = y - 1 := by rw [hy1, if_pos (by omega)]
          simp only [isLeapYear, Bool.and_eq_true, Bool.or_eq_true, decide_eq_true_eq] at hl
          omega
      · have : mp = 11 := by omega
        omega
    · refine ⟨0, Or.inl rfl, ?_⟩
      by_cases h2 : m = 2
      · have : d ≤ 28 := by
          rcases hdim.2.2 h2 with h | ⟨h, _⟩
          · exact h
          · exact absurd ⟨h2, h⟩ hfeb29
        have : mp = 11 := by omega
        omega
      · have := hdim.1
        by_cases h1 : m = 1
        · have : mp = 10 := by omega
          omega
        · have : mp ≤ 9 := by omega
          omega
  obtain ⟨e1, e2, e3, e4⟩ := days_arith y1 _ _ mp doy doe leap rfl rfl ⟨b_mp.1, b_mp.2.1⟩
    hleap hlen hmonth hdoe
  rw [hD]
  simp only [civilFromDays, e1, e2, e3, e4, hmonth]
  have hday : doy - (153 * mp + 2) / 5 + 1 = (d : Int) := by omega
  have hmon : (if mp < 10 then mp + 3 else mp - 9) = (m : Int) := b_mp.2.2.2.symm
  rw [hday, hmon]
  have hyear : (if (m : Int) ≤ 2 then y1 % 400 + y1 / 400 * 400 + 1
      else y1 % 400 + y1 / 400 * 400) = y := by
    split_ifs at hy1 ⊢ <;> omega
  rw [hyear]

/-- A valid time value passes TimeClip unchanged. -/
theorem timeClip_of_valid (t : Int) (ht : t.natAbs ≤ maxTimeValue.natAbs) :
    timeClip t = some t := by
  simp [timeClip, ht]

/-- In the concrete engine the ISO string of a valid time value denotes that time
value: `new Date(d.toISOString())` is the date `d`. -/
theorem newDate_isoString (t : Int) (ht : t.natAbs ≤ maxTimeValue.natAbs) :
    newDate refRuntime (.str (isoString t)) = some t := by
  show (isoDateParse (isoString t)).bind timeClip = some t
  rw [isoDateParse_isoString t ht, Option.some_bind, timeClip_of_valid t ht]

/-- The ISO string is canonical: two valid time values with the same ISO string
are the same instant. -/
theorem isoString_injective (t₁ t₂ : Int) (h₁ : t₁.natAbs ≤ maxTimeValue.natAbs)
    (h₂ : t₂.natAbs ≤ maxTimeValue.natAbs) (h : isoString t₁ = isoString t₂) : t₁ = t₂ := by
  have e₁ := isoDateParse_isoString t₁ h₁
  rw [h, isoDateParse_isoString t₂ h₂] at e₁
  exact (Option.some.inj e₁).symm

/-- The day number of a date of the years 0 to 9999 is well inside the range of
time values. -/
theorem daysFromCivil_bound (y m d : Nat) (hy : y ≤ 9999) (hm : 1 ≤ m ∧ m ≤ 12)
    (hd : 1 ≤ d ∧ d ≤ 31) :
    -100000000 ≤ daysFromCivil y m d ∧ daysFromCivil y m d ≤ 100000000 := by
  unfold daysFromCivil
  simp only []
  split_ifs <;> omega

/-- The concrete engine reads a plain date as midnight UTC of that day. -/
theorem isoDateParse_plainDate (y m d : Nat) (hy : y ≤ 9999) (hm : 1 ≤ m ∧ m ≤ 12)
    (hd : 1 ≤ d ∧ d ≤ daysInMonth y m) :
    isoDateParse (plainDate y m d) = some (daysFromCivil y m d * msPerDay) := by
  have hd31 : d ≤ 31 := by
    refine le_trans hd.2 ?_
    unfold daysInMonth
    split_ifs <;> omega
  have hshape : (plainDate y m d).data =
      isoYear (y : Int) ++ ('-' :: (padDigits 2 m ++ ('-' :: (padDigits 2 d ++ [])))) := by
    have hyear : isoYear (y : Int) = padDigits 4 y := by
      unfold isoYear
      rw [if_pos (by omega), Int.toNat_ofNat]
    simp only [plainDate, hyear, List.append_assoc, List.cons_append, List.append_nil]
  unfold isoDateParse
  rw [hshape, parseYear_isoYear _ (by omega)]
  simp only [Option.some_bind]
  rw [parseField_padDigits '-' 1 _ (by omega)]
  simp only [Option.some_bind]
  rw [parseField_padDigits '-' 1 _ (by omega)]
  simp only [Option.some_bind]
  rw [if_pos ⟨hm.1, hm.2, hd.1, hd.2⟩]

/-- The ISO string of midnight UTC of a date of the years 0 to 9999 is the plain
date followed by the zero time and the letter Z. -/
theorem isoString_plainDate (y m d : Nat) (hy : y ≤ 9999) (hm : 1 ≤ m ∧ m ≤ 12)
    (hd : 1 ≤ d ∧ d ≤ daysInMonth y m) :
    isoString (daysFromCivil y m d * msPerDay) =
      String.mk ((plainDate y m d).data ++ "T00:00:00.000Z".data) := by
  have hdiv : daysFromCivil y m d * msPerDay / msPerDay = daysFromCivil y m d :=
    Int.mul_ediv_cancel _ (by decide)
  have hmod : daysFromCivil y m d * msPerDay % msPerDay = 0 := Int.mul_emod_left _ _
  have hyear : isoYear (y : Int) = padDigits 4 y := by
    unfold isoYear
    rw [if_pos (by omega), Int.toNat_ofNat]
  unfold isoString
  rw [hdiv, hmod, civilFromDays_daysFromCivil y m d hm hd]
  simp only [hyear, Int.toNat_ofNat, plainDate]
  simp [padDigits, digitChar]

/-- In the concrete engine a plain date of the years 0 to 9999 is normalized by
`new Date(date).toISOString()` to midnight UTC of the same day. -/
theorem toISOString_plainDate (y m d : Nat) (hy : y ≤ 9999) (hm : 1 ≤ m ∧ m ≤ 12)
    (hd : 1 ≤ d ∧ d ≤ daysInMonth y m) :
    toISOString (newDate refRuntime (.str (plainDate y m d))) =
      .ok (String.mk ((plainDate y m d).data ++ "T00:00:00.000Z".data)) := by
  have hd31 : d ≤ 31 := by
    refine le_trans hd.2 ?_
    unfold daysInMonth
    split_ifs <;> omega
  have hb := daysFromCivil_bound y m d hy hm ⟨hd.1, hd31⟩
  have hvalid : (daysFromCivil y m d * msPerDay).natAbs ≤ maxTimeValue.natAbs := by
    unfold msPerDay maxTimeValue
    omega
  show toISOString ((isoDateParse (plainDate y m d)).bind timeClip) = _
  rw [isoDateParse_plainDate y m d hy hm hd, Option.some_bind, timeClip_of_valid _ hvalid]
  show Except.ok (isoString _) = _
  rw [isoString_plainDate y m d hy hm hd]

/-- In the concrete engine a full timestamp in canonical form is left as it is by
`new Date(date).toISOString()`. -/
theorem toISOString_isoString (t : Int) (ht : t.natAbs ≤ maxTimeValue.natAbs) :
    toISOString (newDate refRuntime (.str (isoString t))) = .ok (isoString t) := by
  rw [newDate_isoString t ht]
  rfl

end GithubStars
